import Mathlib

/-!
# Verification of the ffh-backend admin console helpers

Shallow embedding of the pure logic of the `ffh-backend` repository
(an Ionic/React admin console backed by a hosted database platform).

Modelling conventions:
* JavaScript strings are modelled as `List Char`.
* JavaScript numbers are modelled as `ℚ` (the code only performs exact
  decimal arithmetic on small values); `NaN` is modelled as `Option.none`.
* The builtin `Number(string)` conversion is modelled by `jsNumber`,
  restricted to the decimal literal forms that occur in this application
  (optional surrounding whitespace, optional sign, digits with an optional
  fractional part); all other inputs are modelled as `none` (`NaN`).
* Asynchronous handlers (which suspend at `await` points) are modelled as
  pure state-transition functions taking the network response as an
  explicit argument; environment-dependent date/locale conversions are
  passed in as function parameters.
-/

namespace FFH

/-- String literal to the char-list model of JS strings. -/
def strL (s : String) : List Char := s.data

/-- Whitespace recognised by the model of `String.prototype.trim`
(the whitespace characters that can occur in this application's inputs). -/
def isWS (c : Char) : Bool := c = ' ' || c = '\t' || c = '\n' || c = '\r'

/-- Model of `s.trim()`. -/
def trimList (cs : List Char) : List Char :=
  ((cs.dropWhile isWS).reverse.dropWhile isWS).reverse

/-- ASCII decimal digit test. -/
def isDigitCh (c : Char) : Bool := 48 ≤ c.toNat && c.toNat ≤ 57

/-- Numeric value of a digit character. -/
def digitVal (c : Char) : ℕ := c.toNat - 48

/-- Value of a big-endian string of decimal digits. -/
def digitsVal (cs : List Char) : ℕ := cs.foldl (fun a c => a * 10 + digitVal c) 0

/-- Decimal digits of `n` (most significant first), fuelled recursion. -/
def natDigitsAux : ℕ → ℕ → List Char
  | 0, _ => []
  | fuel + 1, n =>
    if n < 10 then [Char.ofNat (48 + n)]
    else natDigitsAux fuel (n / 10) ++ [Char.ofNat (48 + n % 10)]

/-- Model of JS number-to-string conversion for a natural number. -/
def natDigits (n : ℕ) : List Char := natDigitsAux (n + 1) n

/-- Model of `String.prototype.padStart(k, "0")`. -/
def padLeftZeros (cs : List Char) (k : ℕ) : List Char :=
  List.replicate (k - cs.length) '0' ++ cs

/-- Model of `frac.padEnd(k, "0")`. -/
def padRightZeros (cs : List Char) (k : ℕ) : List Char :=
  cs ++ List.replicate (k - cs.length) '0'

/-- Model of `s.split(":")` (JS split on a literal one-character string). -/
def splitOnColon : List Char → List (List Char)
  | [] => [[]]
  | c :: rest =>
    if c = ':' then [] :: splitOnColon rest
    else
      match splitOnColon rest with
      | [] => [[c]]
      | h :: t => (c :: h) :: t

/-- Model of `s.replace(",", ".")`: JS `replace` with a string pattern
replaces only the first occurrence. -/
def replaceCommaDot : List Char → List Char
  | [] => []
  | c :: rest => if c = ',' then '.' :: rest else c :: replaceCommaDot rest

/-- Decimal literal body: digits, optionally followed by `.` and digits.
Returns `none` (`NaN`) when the shape is not a decimal literal. -/
def parseUnsignedDec (cs : List Char) : Option ℚ :=
  let intPart := cs.takeWhile isDigitCh
  let rest := cs.dropWhile isDigitCh
  match rest with
  | [] => if intPart.isEmpty then none else some (digitsVal intPart : ℚ)
  | '.' :: rest2 =>
    let fracPart := rest2.takeWhile isDigitCh
    let rest3 := rest2.dropWhile isDigitCh
    if rest3.isEmpty then
      if intPart.isEmpty && fracPart.isEmpty then none
      else some ((digitsVal intPart : ℚ) + (digitsVal fracPart : ℚ) / (10 : ℚ) ^ fracPart.length)
    else none
  | _ => none

/-- Model of ECMAScript `Number(string)` on the decimal forms used by this
application: trim, empty ↦ 0, optional sign, decimal literal; every other
input (hex, exponent, `Infinity`, garbage) is `none` (`NaN`, which the code
always guards with `Number.isFinite`). -/
def jsNumber (cs : List Char) : Option ℚ :=
  let t := trimList cs
  if t.isEmpty then some 0
  else if t.head? = some '-' then (parseUnsignedDec (t.drop 1)).map (fun q => -q)
  else if t.head? = some '+' then parseUnsignedDec (t.drop 1)
  else parseUnsignedDec t

/-- Model of `Math.round` (half-up, as in JS for all finite arguments). -/
def jsRound (q : ℚ) : ℤ := Int.floor (q + 1 / 2)

/-- Model of `Math.trunc`. -/
def jsTrunc (q : ℚ) : ℤ := if 0 ≤ q then Int.floor q else Int.ceil q

/-- ASCII fragment of `String.prototype.toLowerCase` (the inputs compared by
the app are ASCII). -/
def toLowerCh (c : Char) : Char :=
  if 65 ≤ c.toNat && c.toNat ≤ 90 then Char.ofNat (c.toNat + 32) else c

/-- Model of `s.toLowerCase()`. -/
def toLowerList (cs : List Char) : List Char := cs.map toLowerCh

/-- Helper for `containsStr`: does `l` start with `needle`? -/
def startsWithL : List Char → List Char → Bool
  | _, [] => true
  | [], _ :: _ => false
  | c :: cs, d :: ds => c = d && startsWithL cs ds

/-- Model of `s.includes(sub)` (substring containment). -/
def containsStr : List Char → List Char → Bool
  | [], needle => needle.isEmpty
  | c :: t, needle => startsWithL (c :: t) needle || containsStr t needle


end FFH

namespace FFH.GamesResults

open FFH

/-- `parseTimeToMs` from `src/src/pages/GamesResults.tsx` (lines 147-171):
accepts `"m:ss.SSS"`, `"m:ss"`, plain seconds `"ss.SSS"`, or an integer
`≥ 1000` taken as milliseconds; returns `null` (`none`) for blank or
non-numeric input. -/
def parseTimeToMs (v : List Char) : Option ℤ :=
  let s := trimList v
  if s.isEmpty then none
  else if ':' ∈ s then
    let parts := splitOnColon s
    let mStr := parts.getD 0 []
    let secStrRaw := parts.getD 1 []
    match jsNumber mStr with
    | none => none
    | some m =>
      match jsNumber (replaceCommaDot secStrRaw) with
      | none => none
      | some sec => some (jsRound ((m * 60 + sec) * 1000))
  else
    match jsNumber (replaceCommaDot s) with
    | none => none
    | some n =>
      if n.den = 1 ∧ 1000 ≤ n then some (jsTrunc n)
      else some (jsRound (n * 1000))

/-- `formatMs` from `src/src/pages/GamesResults.tsx` (lines 174-180):
renders a millisecond count as `"m:ss.SSS"`; `null` renders as `""`. The
stored `time_ms` values are non-negative integers, modelled as `ℕ`. -/
def formatMs (ms : Option ℕ) : List Char :=
  match ms with
  | none => []
  | some ms =>
    let m := ms / 60000
    let s := (ms % 60000) / 1000
    let msPart := ms % 1000
    natDigits m ++ ':' :: (padLeftZeros (natDigits s) 2 ++ '.' :: padLeftZeros (natDigits msPart) 3)

/-- `parseIntOrNull` from `GamesResults.tsx` (lines 123-129). -/
def parseIntOrNull (v : List Char) : Option ℤ :=
  let s := trimList v
  if s.isEmpty then none
  else
    match jsNumber s with
    | none => none
    | some n => some (jsTrunc n)

/-- `parseFloatOrNull` from `GamesResults.tsx` (lines 132-138). -/
def parseFloatOrNull (v : List Char) : Option ℚ :=
  let s := trimList v
  if s.isEmpty then none
  else jsNumber (replaceCommaDot s)

/-- `isRlsError` from `GamesResults.tsx` (lines 182-190). -/
def isRlsError (msg : List Char) : Bool :=
  let m := toLowerList msg
  containsStr m (strL "row level security") || containsStr m (strL "rls") ||
    containsStr m (strL "policy") || containsStr m (strL "permission denied")

/-- Toast text chosen by `saveRow`'s catch block (lines 465-468). -/
def saveRowErrorToast (msg : List Char) : List Char :=
  if isRlsError msg then strL "Save geblockt: RLS/Policy verhindert Write auf games_run_results."
  else strL "Save Fehler: " ++ msg

/-- Toast text chosen by `saveAllDirty`'s catch block (lines 503-506). -/
def saveAllDirtyErrorToast (msg : List Char) : List Char :=
  if isRlsError msg then strL "Save geblockt: RLS/Policy verhindert Write auf games_run_results."
  else strL "SaveAll Fehler: " ++ msg

/-- `ScoringMode` enum of a discipline. -/
inductive ScoringMode
  | points_only
  | time_best
  | distance_best
  deriving DecidableEq

/-- The fields of the selected run used by `buildPayload`. -/
structure RunRef where
  id : List Char
  discipline_id : List Char
  deriving DecidableEq

/-- The view-model row of the results editor (`RowVM`, lines 78-92). -/
structure RowVM where
  team_id : List Char
  pointsManualStr : List Char
  timeStr : List Char
  distanceStr : List Char
  noteStr : List Char
  achievedAtLocal : List Char
  place : Option ℤ
  pointsAwarded : Option ℤ
  dirty : Bool
  saving : Bool
  deriving DecidableEq

/-- A JS object field value occurring in a write payload. -/
inductive JsVal
  | vnull
  | vint (i : ℤ)
  | vrat (q : ℚ)
  | vstr (s : List Char)
  deriving DecidableEq

/-- Value of an `number | null` field. -/
def JsVal.ofIntOpt : Option ℤ → JsVal
  | none => .vnull
  | some i => .vint i

/-- Value of a float-or-null field. -/
def JsVal.ofRatOpt : Option ℚ → JsVal
  | none => .vnull
  | some q => .vrat q

/-- Value of a `string | null` field. -/
def JsVal.ofStrOpt : Option (List Char) → JsVal
  | none => .vnull
  | some s => .vstr s

/-- Result of `buildPayload`: an error message or the payload object,
kept as an association list to record exactly which keys are written. -/
inductive BuildRes
  | err (msg : List Char)
  | ok (fields : List (List Char × JsVal))
  deriving DecidableEq

/-- The `time_ms` step of `buildPayload` (lines 390-399): only the
`time_best` scoring mode reads the time input; a non-blank unparseable
input is an error. -/
def timeStep (mode : ScoringMode) (row : RowVM) : Except (List Char) (Option ℤ) :=
  if mode = ScoringMode.time_best then
    if ¬(trimList row.timeStr).isEmpty then
      match parseTimeToMs row.timeStr with
      | none => .error (strL "Zeit ungültig. Format z.B. \"1:23.456\" oder \"83.456\".")
      | some t => .ok (some t)
    else .ok none
  else .ok none

/-- The `distance` step of `buildPayload` (lines 401-410): only the
`distance_best` scoring mode reads the distance input. -/
def distStep (mode : ScoringMode) (row : RowVM) : Except (List Char) (Option ℚ) :=
  if mode = ScoringMode.distance_best then
    if ¬(trimList row.distanceStr).isEmpty then
      match parseFloatOrNull row.distanceStr with
      | none => .error (strL "Distanz ungültig. Format z.B. 12.34")
      | some d => .ok (some d)
    else .ok none
  else .ok none

/-- `buildPayload` from `GamesResults.tsx` (lines 382-430). `dtToIso`
models `new Date(value).toISOString()` (environment dependent) and
`nowIso` models `new Date().toISOString()`. -/
def buildPayload (activeEventId : Option (List Char)) (selectedRun : Option RunRef)
    (scoringMode : Option ScoringMode) (dtToIso : List Char → List Char)
    (nowIso : List Char) (row : RowVM) : BuildRes :=
  if (activeEventId.getD []).isEmpty then .err (strL "Kein aktives Event.")
  else
    match selectedRun with
    | none => .err (strL "Bitte zuerst einen Lauf auswählen.")
    | some run =>
      match scoringMode with
      | none => .err (strL "Disziplin/ScoringMode nicht gefunden.")
      | some mode =>
        let points_manual := parseIntOrNull row.pointsManualStr
        match timeStep mode row with
        | .error m => .err m
        | .ok time_ms =>
          match distStep mode row with
          | .error m => .err m
          | .ok distance =>
            let note := if ¬(trimList row.noteStr).isEmpty then some (trimList row.noteStr) else none
            let achieved_at :=
              if ¬row.achievedAtLocal.isEmpty then some (dtToIso row.achievedAtLocal) else none
            .ok
              [(strL "event_id", .vstr (activeEventId.getD [])),
               (strL "discipline_id", .vstr run.discipline_id),
               (strL "run_id", .vstr run.id),
               (strL "team_id", .vstr row.team_id),
               (strL "points_manual", .ofIntOpt points_manual),
               (strL "time_ms", .ofIntOpt time_ms),
               (strL "distance", .ofRatOpt distance),
               (strL "achieved_at", .ofStrOpt achieved_at),
               (strL "note", .ofStrOpt note),
               (strL "updated_at", .vstr nowIso)]

/-- A write request issued against the hosted database. -/
inductive DbWrite
  | update (table : List Char) (fields : List (List Char × JsVal)) (idEq : List Char)
  | insert (table : List Char) (fields : List (List Char × JsVal))
  deriving DecidableEq

/-- The payload of a write request. -/
def DbWrite.fields : DbWrite → List (List Char × JsVal)
  | .update _ f _ => f
  | .insert _ f => f

/-- The write issued by `saveRow` (lines 432-460) for a row: `update` when a
result row for the team already exists, `insert` otherwise; no write happens
when `buildPayload` fails (the error is only toasted). -/
def saveRowWrite (activeEventId : Option (List Char)) (selectedRun : Option RunRef)
    (scoringMode : Option ScoringMode) (dtToIso : List Char → List Char)
    (nowIso : List Char) (row : RowVM) (existingId : Option (List Char)) : Option DbWrite :=
  match buildPayload activeEventId selectedRun scoringMode dtToIso nowIso row with
  | .err _ => none
  | .ok fields =>
    match existingId with
    | some rid => some (.update (strL "games_run_results") fields rid)
    | none => some (.insert (strL "games_run_results") fields)

/-- The sequence of writes issued by `saveAllDirty` (lines 474-498): one per
dirty row, skipping rows whose payload fails to build. -/
def saveAllDirtyWrites (activeEventId : Option (List Char)) (selectedRun : Option RunRef)
    (scoringMode : Option ScoringMode) (dtToIso : List Char → List Char)
    (nowIso : List Char) (rows : List RowVM)
    (existingOf : List Char → Option (List Char)) : List DbWrite :=
  (rows.filter (·.dirty)).filterMap
    (fun r => saveRowWrite activeEventId selectedRun scoringMode dtToIso nowIso r
      (existingOf r.team_id))

end FFH.GamesResults

namespace FFH.HomeVariant

open FFH

/-- Test of the regex `^\d+(\.\d+)?$` from the unnamed GamesHome variant
(`src/unnamed/part_005`, line 72). -/
def plainNumTest (cs : List Char) : Bool :=
  let intPart := cs.takeWhile isDigitCh
  let rest := cs.dropWhile isDigitCh
  if intPart.isEmpty then false
  else if rest = [] then true
  else if rest.head? = some '.' then
    let rest2 := rest.tail
    let frac := rest2.takeWhile isDigitCh
    !frac.isEmpty && (rest2.dropWhile isDigitCh).isEmpty
  else false

/-- Matcher for the regex `^(\d+):(\d{1,2})(?:\.(\d{1,3}))?$` from
`src/unnamed/part_005` (line 79), returning the three capture groups.
Greedy digit runs coincide with the regex semantics here because each
digit group is followed by a non-digit or the end of the string. -/
def timeRegexMatch (cs : List Char) : Option (List Char × List Char × Option (List Char)) :=
  let mmStr := cs.takeWhile isDigitCh
  let rest := cs.dropWhile isDigitCh
  if mmStr.isEmpty then none
  else if rest.head? = some ':' then
    let rest2 := rest.tail
    let ssStr := rest2.takeWhile isDigitCh
    let rest3 := rest2.dropWhile isDigitCh
    if ssStr = [] ∨ 2 < ssStr.length then none
    else if rest3 = [] then some (mmStr, ssStr, none)
    else if rest3.head? = some '.' then
      let rest4 := rest3.tail
      let frac := rest4.takeWhile isDigitCh
      let rest5 := rest4.dropWhile isDigitCh
      if frac = [] ∨ 3 < frac.length ∨ rest5 ≠ [] then none
      else some (mmStr, ssStr, some frac)
    else none
  else none

/-- `parseTimeToMs` from the unnamed GamesHome variant
(`src/unnamed/part_005`, lines 67-91): a plain number is always seconds; a
`mm:ss(.mmm)` match requires `ss < 60`; everything else is `null`. The
captured groups are digit-only strings, on which `Number` is exactly their
decimal value (`jsNumber_digits`) and the `isFinite` guard never fires;
that fact is inlined here. -/
def parseTimeToMs (input : List Char) : Option ℤ :=
  let s := trimList input
  if s.isEmpty then none
  else if plainNumTest s then
    match jsNumber s with
    | none => none
    | some sec => some (jsRound (sec * 1000))
  else
    match timeRegexMatch s with
    | none => none
    | some (m1, m2, m3) =>
      let mm := digitsVal m1
      let ss := digitsVal m2
      let frac := (m3.getD (strL "0"))
      let msv := digitsVal ((padRightZeros frac 3).take 3)
      if 60 ≤ ss then none
      else some ((mm * 60000 + ss * 1000 + msv : ℕ) : ℤ)

end FFH.HomeVariant

namespace FFH.GamesRuns

open FFH

/-- Run status enum (`RunStatus`, the three-value union type in
`src/src/pages/GamesRuns.tsx`). -/
inductive RunStatus
  | planned
  | running
  | done
  deriving DecidableEq

/-- The status string carried by a `RunStatus` value. -/
def statusStr : RunStatus → List Char
  | .planned => strL "planned"
  | .running => strL "running"
  | .done => strL "done"

/-- `normalizeStatus` from `GamesRuns.tsx` (lines 111-116). The argument is
`string | null | undefined`, modelled as `Option (List Char)`. -/
def normalizeStatus (s : Option (List Char)) : RunStatus :=
  let v := toLowerList (s.getD [])
  if v = strL "running" then .running
  else if v = strL "done" then .done
  else .planned

/-- A row of `games_runs` as selected by `loadRuns` (lines 225-233). -/
structure RunRow where
  id : List Char
  discipline_id : List Char
  name : Option (List Char)
  scheduled_at : Option (List Char)
  started_at : Option (List Char)
  finished_at : Option (List Char)
  status : Option (List Char)
  sort_order : Option ℚ
  deriving DecidableEq

/-- The editable view-model row (`VmRun`, lines 118-132). -/
structure VmRun where
  id : List Char
  discipline_id : List Char
  name : List Char
  status : RunStatus
  scheduled_local : List Char
  started_local : List Char
  finished_local : List Char
  sort_order : List Char
  saving : Bool
  deriving DecidableEq

/-- The VM built from a loaded row (lines 242-252). `isoToLocal` models
`isoToDatetimeLocal` (timezone dependent) and `numToStr` models JS
number-to-string conversion for `sort_order`. -/
def rowToVm (isoToLocal : Option (List Char) → List Char) (numToStr : ℚ → List Char)
    (x : RunRow) : VmRun :=
  { id := x.id
    discipline_id := x.discipline_id
    name := x.name.getD []
    status := normalizeStatus x.status
    scheduled_local := isoToLocal x.scheduled_at
    started_local := isoToLocal x.started_at
    finished_local := isoToLocal x.finished_at
    sort_order := match x.sort_order with | some q => numToStr q | none => []
    saving := false }

/-- The VM list built by `loadRuns` (lines 241-253). -/
def loadRunsVm (isoToLocal : Option (List Char) → List Char) (numToStr : ℚ → List Char)
    (rows : List RunRow) : List VmRun :=
  rows.map (rowToVm isoToLocal numToStr)

/-- `datetimeLocalToISO` from `GamesRuns.tsx` (lines 104-109); `dateParse`
models `new Date(value)` plus the validity check and `toISOString`. -/
def datetimeLocalToISO (dateParse : List Char → Option (List Char))
    (value : List Char) : Option (List Char) :=
  if (trimList value).isEmpty then none
  else dateParse value

/-- The update payload sent by `saveRun` (lines 397-405). -/
structure RunUpdate where
  name : Option (List Char)
  status : RunStatus
  scheduled_at : Option (List Char)
  started_at : Option (List Char)
  finished_at : Option (List Char)
  sort_order : Option ℚ
  updated_at : List Char
  deriving DecidableEq

/-- `updateVm` (lines 362-364) specialised to a record patch already known:
here the generic map-replace used by `saveRun` for the saving flag. -/
def updateVmSaving (l : List VmRun) (id : List Char) (b : Bool) : List VmRun :=
  l.map (fun x => if x.id = id then { x with saving := b } else x)

/-- The revert patch applied by `saveRun` on an update error (lines 421-428). -/
def revertVm (isoToLocal : Option (List Char) → List Char) (numToStr : ℚ → List Char)
    (l : List VmRun) (id : List Char) (original : RunRow) : List VmRun :=
  l.map (fun x => if x.id = id then
    { x with
      name := original.name.getD []
      status := normalizeStatus original.status
      scheduled_local := isoToLocal original.scheduled_at
      started_local := isoToLocal original.started_at
      finished_local := isoToLocal original.finished_at
      sort_order := match original.sort_order with | some q => numToStr q | none => [] }
    else x)

/-- Outcome of one `saveRun` call. -/
structure SaveRunOutcome where
  vmRuns : List VmRun
  toastMsg : Option (List Char)
  wrote : Option RunUpdate
  reloaded : Bool
  deriving DecidableEq

/-- `saveRun` from `GamesRuns.tsx` (lines 366-435) as a state transition:
`vmRuns`/`runs` are the component state, `id` the saved row, and `resp` the
error of the awaited `update` call (`none` = success). `dateParse` models
`new Date` parsing, `nowIso` models `new Date().toISOString()`. -/
def saveRun (isoToLocal : Option (List Char) → List Char) (numToStr : ℚ → List Char)
    (dateParse : List Char → Option (List Char)) (nowIso : List Char)
    (vmRuns : List VmRun) (runs : List RunRow) (id : List Char)
    (resp : Option (List Char)) : SaveRunOutcome :=
  match vmRuns.find? (fun x => x.id = id), runs.find? (fun x => x.id = id) with
  | some vm, some original =>
    if ¬(trimList vm.sort_order).isEmpty ∧ jsNumber vm.sort_order = none then
      { vmRuns := vmRuns, toastMsg := some (strL "sort_order muss eine Zahl sein."),
        wrote := none, reloaded := false }
    else
      let parsedSort : Option ℚ :=
        if ¬(trimList vm.sort_order).isEmpty then jsNumber vm.sort_order else none
      let scheduledIso :=
        if ¬vm.scheduled_local.isEmpty then datetimeLocalToISO dateParse vm.scheduled_local
        else none
      let startedIso :=
        if ¬vm.started_local.isEmpty then datetimeLocalToISO dateParse vm.started_local
        else none
      let finishedIso :=
        if ¬vm.finished_local.isEmpty then datetimeLocalToISO dateParse vm.finished_local
        else none
      if ¬vm.scheduled_local.isEmpty ∧ scheduledIso = none then
        { vmRuns := vmRuns, toastMsg := some (strL "scheduled_at konnte nicht geparst werden."),
          wrote := none, reloaded := false }
      else if ¬vm.started_local.isEmpty ∧ startedIso = none then
        { vmRuns := vmRuns, toastMsg := some (strL "started_at konnte nicht geparst werden."),
          wrote := none, reloaded := false }
      else if ¬vm.finished_local.isEmpty ∧ finishedIso = none then
        { vmRuns := vmRuns, toastMsg := some (strL "finished_at konnte nicht geparst werden."),
          wrote := none, reloaded := false }
      else
        let payload : RunUpdate :=
          { name := if ¬(trimList vm.name).isEmpty then some (trimList vm.name) else none
            status := vm.status
            scheduled_at := scheduledIso
            started_at := startedIso
            finished_at := finishedIso
            sort_order := parsedSort
            updated_at := nowIso }
        let afterFlags := updateVmSaving (updateVmSaving vmRuns id true) id false
        match resp with
        | some msg =>
          { vmRuns := revertVm isoToLocal numToStr afterFlags id original
            toastMsg := some (strL "Update Fehler: " ++ msg)
            wrote := some payload
            reloaded := false }
        | none =>
          { vmRuns := afterFlags
            toastMsg := some (strL "Gespeichert.")
            wrote := some payload
            reloaded := true }
  | _, _ =>
    { vmRuns := vmRuns, toastMsg := none, wrote := none, reloaded := false }

/-- A row of `games_events` / the `games_active_event` view. -/
structure EventRow where
  id : List Char
  name : List Char
  subtitle : Option (List Char)
  starts_at : Option (List Char)
  deriving DecidableEq

/-- A hosted-platform query response: an error message or data. -/
structure QueryResp (α : Type) where
  error : Option (List Char)
  data : Option α

/-- The fallback taken when the `games_events` query does not yield a row:
query the `games_active_event` view (lines 193-199). -/
def viewFallback (view : QueryResp EventRow) : Bool × Except (List Char) (Option EventRow) :=
  match view.error with
  | some e => (true, .error e)
  | none => (true, .ok view.data)

/-- `loadActiveEvent` from `GamesRuns.tsx` (lines 183-200), identically
repeated in `GamesResults.tsx` (lines 987-1006). The first component
records whether the fallback view was queried. -/
def loadActiveEvent (ev view : QueryResp EventRow) :
    Bool × Except (List Char) (Option EventRow) :=
  match ev.error, ev.data with
  | none, some d => if ¬d.id.isEmpty then (false, .ok (some d)) else viewFallback view
  | none, none => viewFallback view
  | some _, _ => viewFallback view

/-- A row of `games_disciplines` as selected by `loadDisciplines`. -/
structure DisciplineRow where
  id : List Char
  event_id : List Char
  name : List Char
  scoring_mode : GamesResults.ScoringMode
  sort_order : Option ℚ
  deriving DecidableEq

/-- `loadDisciplines` from `GamesRuns.tsx` (lines 202-223): the second query
(without the `sort_order` column, ordered by name only) runs exactly when
the first errors. The first component records whether it retried. -/
def loadDisciplines (q1 q2 : QueryResp (List DisciplineRow)) :
    Bool × Except (List Char) (List DisciplineRow) :=
  match q1.error with
  | none => (false, .ok (q1.data.getD []))
  | some _ =>
    match q2.error with
    | some e => (true, .error e)
    | none => (true, .ok (q2.data.getD []))

end FFH.GamesRuns

namespace FFH.GamesHome

open FFH

/-- The feature state kept by `GamesHome` (`FeatureState`, lines 57-61). -/
structure FeatureState where
  enabled : Bool
  showTab : Bool
  title : List Char
  deriving DecidableEq

/-- An `app_features` row as returned by the upsert's `select` (lines
27-33). The JSON `config` column is abstracted to its normalized
`show_tab` field: `none` models "undefined after `normalizeConfig`". -/
structure FeatureRow where
  key : List Char
  enabled : Option Bool
  title : Option (List Char)
  config : Option Bool
  updated_at : Option (List Char)
  deriving DecidableEq

/-- Response of the awaited upsert-and-select (lines 172-176). -/
structure UpsertResp where
  error : Option (List Char)
  data : Option FeatureRow
  deriving DecidableEq

/-- The component state touched by `save`. -/
structure HomeState where
  saveToken : ℕ
  saving : Bool
  feature : FeatureState
  toastMsg : Option (List Char)
  deriving DecidableEq

/-- The feature state derived from a returned row (lines 197-205). -/
def featureFromRow (row : FeatureRow) (fallbackShowTab : Bool) : FeatureState :=
  { enabled := row.enabled.getD false
    showTab := row.config.getD fallbackShowTab
    title := row.title.getD (strL "Spiele & Tabelle") }

/-- The synchronous head of `save` (lines 158-170): set the saving flag and
increment the save-token counter, capturing the token. -/
def startSave (st : HomeState) : HomeState × ℕ :=
  ({ st with saving := true, saveToken := st.saveToken + 1 }, st.saveToken + 1)

/-- The continuation of `save` after the upsert response arrives (lines
178-211): discard the response when a newer save has started; otherwise
clear the saving flag and either revert to `prev` on error or adopt the
returned row. The second component records whether the trailing
`await load()` reload runs. -/
def completeSave (st : HomeState) (token : ℕ) (next prev : FeatureState)
    (resp : UpsertResp) : HomeState × Bool :=
  if token ≠ st.saveToken then (st, false)
  else
    let st1 := { st with saving := false }
    match resp.error with
    | some msg =>
      let lower := toLowerList msg
      let t :=
        if containsStr lower (strL "row-level security") || containsStr lower (strL "policy")
        then strL "Save geblockt: RLS/Policy verhindert UPDATE/UPSERT."
        else strL "Save Fehler: " ++ msg
      ({ st1 with feature := prev, toastMsg := some t }, false)
    | none =>
      let st2 :=
        match resp.data with
        | some row => { st1 with feature := featureFromRow row next.showTab }
        | none => st1
      ({ st2 with toastMsg := some (strL "Gespeichert.") }, true)

end FFH.GamesHome

namespace FFH

/-! ## Facts about digit characters and digit strings -/

theorem digit_ne {c d : Char} (h : isDigitCh c = true) (hd : isDigitCh d = false) :
    c ≠ d := by
  intro he
  subst he
  rw [h] at hd
  cases hd

theorem digit_not_ws {c : Char} (h : isDigitCh c = true) : isWS c = false := by
  have h1 : c ≠ ' ' := digit_ne h (by decide)
  have h2 : c ≠ '\t' := digit_ne h (by decide)
  have h3 : c ≠ '\n' := digit_ne h (by decide)
  have h4 : c ≠ '\r' := digit_ne h (by decide)
  simp [isWS, h1, h2, h3, h4]

theorem dropWhile_eq_self_of {p : Char → Bool} {l : List Char}
    (h : ∀ c ∈ l, p c = false) : l.dropWhile p = l := by
  cases l with
  | nil => rfl
  | cons a t => simp [List.dropWhile_cons, h a (List.mem_cons_self a t)]

theorem trimList_eq_self {cs : List Char} (h : ∀ c ∈ cs, isWS c = false) :
    trimList cs = cs := by
  unfold trimList
  rw [dropWhile_eq_self_of h,
    dropWhile_eq_self_of (fun c hc => h c (List.mem_reverse.mp hc)), List.reverse_reverse]

theorem takeWhile_append_all {p : Char → Bool} {a : List Char} (b : List Char)
    (h : ∀ c ∈ a, p c = true) : (a ++ b).takeWhile p = a ++ b.takeWhile p := by
  induction a with
  | nil => simp
  | cons x t ih =>
    simp only [List.cons_append, List.takeWhile_cons, h x (List.mem_cons_self x t)]
    rw [ih (fun c hc => h c (List.mem_cons_of_mem x hc))]
    simp

theorem dropWhile_append_all {p : Char → Bool} {a : List Char} (b : List Char)
    (h : ∀ c ∈ a, p c = true) : (a ++ b).dropWhile p = b.dropWhile p := by
  induction a with
  | nil => simp
  | cons x t ih =>
    simp only [List.cons_append, List.dropWhile_cons, h x (List.mem_cons_self x t)]
    exact ih (fun c hc => h c (List.mem_cons_of_mem x hc))

theorem takeWhile_eq_self_of {p : Char → Bool} {a : List Char}
    (h : ∀ c ∈ a, p c = true) : a.takeWhile p = a := by
  have := takeWhile_append_all (p := p) (a := a) [] h
  simpa using this

theorem dropWhile_eq_nil_of {p : Char → Bool} {a : List Char}
    (h : ∀ c ∈ a, p c = true) : a.dropWhile p = [] := by
  have := dropWhile_append_all (p := p) (a := a) [] h
  simpa using this

theorem digitsVal_foldl_init (cs : List Char) : ∀ init : ℕ,
    cs.foldl (fun a c => a * 10 + digitVal c) init = init * 10 ^ cs.length + digitsVal cs := by
  induction cs with
  | nil => intro init; simp [digitsVal]
  | cons c t ih =>
    intro init
    have hcons : digitsVal (c :: t) = digitVal c * 10 ^ t.length + digitsVal t := by
      unfold digitsVal
      simp only [List.foldl_cons]
      rw [ih (0 * 10 + digitVal c)]
      simp [digitsVal]
    simp only [List.foldl_cons]
    rw [ih (init * 10 + digitVal c), hcons]
    simp only [List.length_cons]
    ring

theorem digitsVal_append (a b : List Char) :
    digitsVal (a ++ b) = digitsVal a * 10 ^ b.length + digitsVal b := by
  unfold digitsVal
  rw [List.foldl_append]
  exact digitsVal_foldl_init b _

theorem digitsVal_replicate_zero (j : ℕ) : digitsVal (List.replicate j '0') = 0 := by
  induction j with
  | zero => rfl
  | succ k ih =>
    have : digitsVal (List.replicate (k + 1) '0')
        = digitsVal (List.replicate k '0' ++ ['0']) := by
      rw [← List.replicate_succ' k '0']
    rw [this, digitsVal_append, ih]
    rfl

theorem digitsVal_padLeftZeros (cs : List Char) (k : ℕ) :
    digitsVal (padLeftZeros cs k) = digitsVal cs := by
  unfold padLeftZeros
  rw [digitsVal_append, digitsVal_replicate_zero]
  ring

theorem padLeftZeros_length {cs : List Char} {k : ℕ} (h : cs.length ≤ k) :
    (padLeftZeros cs k).length = k := by
  simp [padLeftZeros]
  omega

theorem padLeftZeros_all {p : Char → Bool} {cs : List Char} {k : ℕ}
    (hz : p '0' = true) (h : ∀ c ∈ cs, p c = true) :
    ∀ c ∈ padLeftZeros cs k, p c = true := by
  intro c hc
  rcases List.mem_append.mp hc with h1 | h2
  · rw [List.eq_of_mem_replicate h1]; exact hz
  · exact h c h2

theorem digitVal_ofNat {d : ℕ} (hd : d < 10) :
    digitVal (Char.ofNat (48 + d)) = d ∧ isDigitCh (Char.ofNat (48 + d)) = true := by
  interval_cases d <;> exact ⟨by decide, by decide⟩

theorem natDigitsAux_spec : ∀ (fuel n : ℕ), n < 10 ^ fuel →
    digitsVal (natDigitsAux fuel n) = n
    ∧ (∀ c ∈ natDigitsAux fuel n, isDigitCh c = true)
    ∧ (0 < fuel → natDigitsAux fuel n ≠ []) := by
  intro fuel
  induction fuel with
  | zero =>
    intro n hn
    have : n = 0 := by simpa using hn
    subst this
    refine ⟨rfl, by simp [natDigitsAux], by simp⟩
  | succ f ih =>
    intro n hn
    by_cases h10 : n < 10
    · have hd := digitVal_ofNat h10
      refine ⟨?_, ?_, ?_⟩
      · simp [natDigitsAux, h10, digitsVal, hd.1]
      · intro c hc
        simp [natDigitsAux, h10] at hc
        subst hc
        exact hd.2
      · intro _
        simp [natDigitsAux, h10]
    · have hdiv : n / 10 < 10 ^ f := by
        rw [Nat.div_lt_iff_lt_mul (by norm_num)]
        calc n < 10 ^ (f + 1) := hn
          _ = 10 ^ f * 10 := by ring
      obtain ⟨ihv, ihd, _⟩ := ih (n / 10) hdiv
      have hm : n % 10 < 10 := Nat.mod_lt _ (by norm_num)
      have hd := digitVal_ofNat hm
      refine ⟨?_, ?_, ?_⟩
      · simp only [natDigitsAux, if_neg h10]
        rw [digitsVal_append, ihv]
        have : digitsVal [Char.ofNat (48 + n % 10)] = n % 10 := by
          simp [digitsVal, hd.1]
        rw [this]
        simp only [List.length_singleton, pow_one]
        omega
      · intro c hc
        simp only [natDigitsAux, if_neg h10] at hc
        rcases List.mem_append.mp hc with h1 | h2
        · exact ihd c h1
        · simp at h2; subst h2; exact hd.2
      · intro _
        simp only [natDigitsAux, if_neg h10]
        simp

theorem lt_ten_pow_succ_self (n : ℕ) : n < 10 ^ (n + 1) := by
  calc n < 2 ^ n := Nat.lt_two_pow n
    _ ≤ 10 ^ n := Nat.pow_le_pow_left (by norm_num) n
    _ ≤ 10 ^ (n + 1) := Nat.pow_le_pow_right (by norm_num) (Nat.le_succ n)

theorem natDigits_val (n : ℕ) : digitsVal (natDigits n) = n :=
  (natDigitsAux_spec (n + 1) n (lt_ten_pow_succ_self n)).1

theorem natDigits_all_digit (n : ℕ) : ∀ c ∈ natDigits n, isDigitCh c = true :=
  (natDigitsAux_spec (n + 1) n (lt_ten_pow_succ_self n)).2.1

theorem natDigits_ne_nil (n : ℕ) : natDigits n ≠ [] :=
  (natDigitsAux_spec (n + 1) n (lt_ten_pow_succ_self n)).2.2 (Nat.succ_pos n)

theorem natDigitsAux_len : ∀ (fuel n k : ℕ), 0 < k → n < 10 ^ k →
    (natDigitsAux fuel n).length ≤ k := by
  intro fuel
  induction fuel with
  | zero => intro n k hk _; simp [natDigitsAux]
  | succ f ih =>
    intro n k hk hn
    by_cases h10 : n < 10
    · simp [natDigitsAux, h10]; omega
    · have hk2 : 2 ≤ k := by
        by_contra hlt
        have : k = 1 := by omega
        subst this
        simp at hn
        omega
      have hdiv : n / 10 < 10 ^ (k - 1) := by
        rw [Nat.div_lt_iff_lt_mul (by norm_num)]
        calc n < 10 ^ k := hn
          _ = 10 ^ (k - 1) * 10 := by
            rw [← pow_succ]
            congr 1
            omega
      have := ih (n / 10) (k - 1) (by omega) hdiv
      simp only [natDigitsAux, if_neg h10, List.length_append, List.length_singleton]
      omega

theorem natDigits_len_le {n k : ℕ} (hk : 0 < k) (hn : n < 10 ^ k) :
    (natDigits n).length ≤ k :=
  natDigitsAux_len (n + 1) n k hk hn

/-! ## Evaluating `jsNumber` on digit-string shapes -/

theorem parseUnsignedDec_digits {ds : List Char} (hne : ds ≠ [])
    (hd : ∀ c ∈ ds, isDigitCh c = true) :
    parseUnsignedDec ds = some (digitsVal ds : ℚ) := by
  unfold parseUnsignedDec
  rw [takeWhile_eq_self_of hd, dropWhile_eq_nil_of hd]
  simp [List.isEmpty_iff, hne]

theorem parseUnsignedDec_digits_dot {ds fs : List Char} (hne : ds ≠ [])
    (hd : ∀ c ∈ ds, isDigitCh c = true) (hf : ∀ c ∈ fs, isDigitCh c = true) :
    parseUnsignedDec (ds ++ '.' :: fs)
      = some ((digitsVal ds : ℚ) + (digitsVal fs : ℚ) / (10 : ℚ) ^ fs.length) := by
  unfold parseUnsignedDec
  rw [takeWhile_append_all _ hd, dropWhile_append_all _ hd]
  have hdot : isDigitCh '.' = false := by decide
  simp only [List.takeWhile_cons, List.dropWhile_cons, hdot, Bool.false_eq_true, if_false,
    List.append_nil]
  rw [takeWhile_eq_self_of hf, dropWhile_eq_nil_of hf]
  simp [List.isEmpty_iff, hne]

theorem digits_head_not_sign {ds : List Char} (hne : ds ≠ [])
    (hd : ∀ c ∈ ds, isDigitCh c = true) :
    ds.head? ≠ some '-' ∧ ds.head? ≠ some '+' := by
  cases ds with
  | nil => exact absurd rfl hne
  | cons c t =>
    have hc := hd c (List.mem_cons_self c t)
    refine ⟨?_, ?_⟩ <;> intro h <;> simp [List.head?] at h <;> subst h
    · exact absurd hc (by decide)
    · exact absurd hc (by decide)

theorem jsNumber_eq_parseUnsignedDec {cs : List Char} (hne : cs ≠ [])
    (hws : ∀ c ∈ cs, isWS c = false)
    (h1 : cs.head? ≠ some '-') (h2 : cs.head? ≠ some '+') :
    jsNumber cs = parseUnsignedDec cs := by
  unfold jsNumber
  rw [trimList_eq_self hws]
  simp [List.isEmpty_iff, hne, h1, h2]

theorem jsNumber_digits {ds : List Char} (hne : ds ≠ [])
    (hd : ∀ c ∈ ds, isDigitCh c = true) :
    jsNumber ds = some (digitsVal ds : ℚ) := by
  obtain ⟨h1, h2⟩ := digits_head_not_sign hne hd
  rw [jsNumber_eq_parseUnsignedDec hne (fun c hc => digit_not_ws (hd c hc)) h1 h2]
  exact parseUnsignedDec_digits hne hd

theorem jsNumber_digits_dot {ds fs : List Char} (hne : ds ≠ [])
    (hd : ∀ c ∈ ds, isDigitCh c = true) (hf : ∀ c ∈ fs, isDigitCh c = true) :
    jsNumber (ds ++ '.' :: fs)
      = some ((digitsVal ds : ℚ) + (digitsVal fs : ℚ) / (10 : ℚ) ^ fs.length) := by
  have hws : ∀ c ∈ ds ++ '.' :: fs, isWS c = false := by
    intro c hc
    rcases List.mem_append.mp hc with h1 | h2
    · exact digit_not_ws (hd c h1)
    · rcases List.mem_cons.mp h2 with h3 | h4
      · subst h3; decide
      · exact digit_not_ws (hf c h4)
  have hne2 : ds ++ '.' :: fs ≠ [] := by
    intro h
    exact hne (List.append_eq_nil.mp h).1
  obtain ⟨hh1, hh2⟩ : (ds ++ '.' :: fs).head? ≠ some '-' ∧ (ds ++ '.' :: fs).head? ≠ some '+' := by
    cases ds with
    | nil => exact absurd rfl hne
    | cons c t =>
      have hc := hd c (List.mem_cons_self c t)
      constructor <;> intro h <;> simp [List.head?] at h <;> subst h
      · exact absurd hc (by decide)
      · exact absurd hc (by decide)
  rw [jsNumber_eq_parseUnsignedDec hne2 hws hh1 hh2]
  exact parseUnsignedDec_digits_dot hne hd hf

/-! ## `splitOnColon` and `replaceCommaDot` -/

theorem splitOnColon_no_colon {cs : List Char} (h : ':' ∉ cs) : splitOnColon cs = [cs] := by
  induction cs with
  | nil => rfl
  | cons c t ih =>
    have hc : c ≠ ':' := fun he => h (he ▸ List.mem_cons_self c t)
    have ht : ':' ∉ t := fun hm => h (List.mem_cons_of_mem c hm)
    unfold splitOnColon
    rw [if_neg hc, ih ht]

theorem splitOnColon_append {a : List Char} (b : List Char) (h : ':' ∉ a) :
    splitOnColon (a ++ ':' :: b) = a :: splitOnColon b := by
  induction a with
  | nil =>
    show splitOnColon (':' :: b) = [] :: splitOnColon b
    conv_lhs => rw [splitOnColon]
    rw [if_pos rfl]
  | cons c t ih =>
    have hc : c ≠ ':' := fun he => h (he ▸ List.mem_cons_self c t)
    have ht : ':' ∉ t := fun hm => h (List.mem_cons_of_mem c hm)
    show splitOnColon (c :: (t ++ ':' :: b)) = (c :: t) :: splitOnColon b
    conv_lhs => rw [splitOnColon]
    rw [if_neg hc, ih ht]

theorem replaceCommaDot_eq_self {cs : List Char} (h : ',' ∉ cs) :
    replaceCommaDot cs = cs := by
  induction cs with
  | nil => rfl
  | cons c t ih =>
    have hc : c ≠ ',' := fun he => h (he ▸ List.mem_cons_self c t)
    have ht : ',' ∉ t := fun hm => h (List.mem_cons_of_mem c hm)
    unfold replaceCommaDot
    rw [if_neg hc, ih ht]

/-! ## `jsRound` on exact integers -/

theorem jsRound_intCast (k : ℤ) : jsRound (k : ℚ) = k := by
  unfold jsRound
  rw [Int.floor_int_add]
  norm_num

theorem jsRound_natCast (n : ℕ) : jsRound (n : ℚ) = (n : ℤ) := by
  have : ((n : ℤ) : ℚ) = (n : ℚ) := by push_cast; ring
  rw [← this, jsRound_intCast]

/-! ## `containsStr` is substring containment -/

theorem startsWithL_iff (needle : List Char) : ∀ l : List Char,
    startsWithL l needle = true ↔ ∃ rest, l = needle ++ rest := by
  induction needle with
  | nil =>
    intro l
    simp [startsWithL]
  | cons d ds ih =>
    intro l
    cases l with
    | nil =>
      simp [startsWithL]
    | cons c cs =>
      simp only [startsWithL, Bool.and_eq_true, decide_eq_true_eq, ih cs]
      constructor
      · rintro ⟨rfl, rest, rfl⟩
        exact ⟨rest, rfl⟩
      · rintro ⟨rest, h⟩
        simp only [List.cons_append, List.cons.injEq] at h
        exact ⟨h.1, rest, h.2⟩

theorem containsStr_iff (needle : List Char) : ∀ hay : List Char,
    containsStr hay needle = true ↔ ∃ pre post, hay = pre ++ needle ++ post := by
  intro hay
  induction hay with
  | nil =>
    simp [containsStr, List.isEmpty_iff]
  | cons c t ih =>
    simp only [containsStr, Bool.or_eq_true, startsWithL_iff, ih]
    constructor
    · rintro (⟨rest, h⟩ | ⟨pre, post, h⟩)
      · exact ⟨[], rest, by simpa using h⟩
      · exact ⟨c :: pre, post, by simp [h]⟩
    · rintro ⟨pre, post, h⟩
      cases pre with
      | nil => exact Or.inl ⟨post, by simpa using h⟩
      | cons p ps =>
        simp only [List.cons_append, List.cons.injEq] at h
        exact Or.inr ⟨ps, post, h.2⟩


open FFH.GamesResults

/-- A `jsTrunc` of an exact integer is that integer. -/
theorem jsTrunc_intCast (k : ℤ) : jsTrunc (k : ℚ) = k := by
  unfold jsTrunc
  split <;> simp

/-- `jsTrunc` of a rational with denominator 1 is its numerator. -/
theorem jsTrunc_den_one {q : ℚ} (h : q.den = 1) : jsTrunc q = q.num := by
  have hq := (Rat.den_eq_one_iff q).mp h
  calc jsTrunc q = jsTrunc ((q.num : ℚ)) := by rw [hq]
    _ = q.num := jsTrunc_intCast _

/-- Evaluation of `parseTimeToMs` on a string with exactly one colon and no
whitespace, when both sides of the colon parse as numbers (the right side
after comma-to-dot replacement). -/
theorem parseTimeToMs_colon_some {md rest : List Char}
    (hmd_ne : md ≠ []) (hmc : ':' ∉ md) (hrc : ':' ∉ rest)
    (hws : ∀ c ∈ md ++ ':' :: rest, isWS c = false)
    {m sec : ℚ} (hm : jsNumber md = some m)
    (hsec : jsNumber (replaceCommaDot rest) = some sec) :
    GamesResults.parseTimeToMs (md ++ ':' :: rest)
      = some (jsRound ((m * 60 + sec) * 1000)) := by
  unfold GamesResults.parseTimeToMs
  rw [trimList_eq_self hws]
  have hne : md ++ ':' :: rest ≠ [] := by
    intro h
    exact hmd_ne (List.append_eq_nil.mp h).1
  have hmem : ':' ∈ md ++ ':' :: rest :=
    List.mem_append.mpr (Or.inr (List.mem_cons_self _ _))
  rw [if_neg (by simp [List.isEmpty_iff, hne]), if_pos hmem]
  rw [splitOnColon_append rest hmc, splitOnColon_no_colon hrc]
  show (match jsNumber md with
    | none => none
    | some m =>
      match jsNumber (replaceCommaDot rest) with
      | none => none
      | some sec => some (jsRound ((m * 60 + sec) * 1000))) = _
  rw [hm, hsec]

/-- Evaluation of `parseTimeToMs` on a nonempty colon-free string with no
whitespace that parses as a number. -/
theorem parseTimeToMs_plain_some {s : List Char}
    (hne : s ≠ []) (hnc : ':' ∉ s) (hws : ∀ c ∈ s, isWS c = false)
    {n : ℚ} (hj : jsNumber (replaceCommaDot s) = some n) :
    GamesResults.parseTimeToMs s
      = if n.den = 1 ∧ 1000 ≤ n then some (jsTrunc n)
        else some (jsRound (n * 1000)) := by
  unfold GamesResults.parseTimeToMs
  rw [trimList_eq_self hws]
  rw [if_neg (by simp [List.isEmpty_iff, hne]), if_neg hnc, hj]

/-- Digit characters are not colons. -/
theorem digits_no_colon {ds : List Char} (hd : ∀ c ∈ ds, isDigitCh c = true) :
    ':' ∉ ds := by
  intro hm
  exact absurd (hd ':' hm) (by decide)

/-- Digit characters are not commas. -/
theorem digits_no_comma {ds : List Char} (hd : ∀ c ∈ ds, isDigitCh c = true) :
    ',' ∉ ds := by
  intro hm
  exact absurd (hd ',' hm) (by decide)

/-- Digit strings contain no whitespace. -/
theorem digits_no_ws {ds : List Char} (hd : ∀ c ∈ ds, isDigitCh c = true) :
    ∀ c ∈ ds, isWS c = false :=
  fun c hc => digit_not_ws (hd c hc)

/-- The three numeric components of a `formatMs` rendering: all digits, the
seconds field padded to exactly 2 characters, the millisecond field to
exactly 3, with the expected decimal values. -/
theorem formatMs_components (ms : ℕ) :
    (∀ c ∈ natDigits (ms / 60000), isDigitCh c = true)
    ∧ natDigits (ms / 60000) ≠ []
    ∧ (∀ c ∈ padLeftZeros (natDigits (ms % 60000 / 1000)) 2, isDigitCh c = true)
    ∧ (padLeftZeros (natDigits (ms % 60000 / 1000)) 2).length = 2
    ∧ digitsVal (padLeftZeros (natDigits (ms % 60000 / 1000)) 2) = ms % 60000 / 1000
    ∧ (∀ c ∈ padLeftZeros (natDigits (ms % 1000)) 3, isDigitCh c = true)
    ∧ (padLeftZeros (natDigits (ms % 1000)) 3).length = 3
    ∧ digitsVal (padLeftZeros (natDigits (ms % 1000)) 3) = ms % 1000 := by
  have hs2 : ms % 60000 / 1000 < 100 := by omega
  have hp : ms % 1000 < 1000 := by omega
  refine ⟨natDigits_all_digit _, natDigits_ne_nil _, ?_, ?_, ?_, ?_, ?_, ?_⟩
  · exact padLeftZeros_all (by decide) (natDigits_all_digit _)
  · exact padLeftZeros_length (natDigits_len_le (by norm_num) (by norm_num; omega))
  · rw [digitsVal_padLeftZeros, natDigits_val]
  · exact padLeftZeros_all (by decide) (natDigits_all_digit _)
  · exact padLeftZeros_length (natDigits_len_le (by norm_num) (by norm_num; omega))
  · rw [digitsVal_padLeftZeros, natDigits_val]

/-- The rendering of `formatMs` unfolded into its three components. -/
theorem formatMs_eq (ms : ℕ) :
    GamesResults.formatMs (some ms)
      = natDigits (ms / 60000) ++ ':' :: (padLeftZeros (natDigits (ms % 60000 / 1000)) 2
          ++ '.' :: padLeftZeros (natDigits (ms % 1000)) 3) := rfl

/-- Round trip: `parseTimeToMs` recovers the exact value from a `formatMs`
rendering. -/
theorem formatMs_parse (ms : ℕ) :
    GamesResults.parseTimeToMs (GamesResults.formatMs (some ms)) = some (ms : ℤ) := by
  obtain ⟨hmd, hmne, hsd, hslen, hsval, hfd, hflen, hfval⟩ := formatMs_components ms
  rw [formatMs_eq]
  have hsne : padLeftZeros (natDigits (ms % 60000 / 1000)) 2 ≠ [] := by
    intro h
    rw [h] at hslen
    simp at hslen
  have hrc : ':' ∉ padLeftZeros (natDigits (ms % 60000 / 1000)) 2
      ++ '.' :: padLeftZeros (natDigits (ms % 1000)) 3 := by
    intro hm
    rcases List.mem_append.mp hm with h1 | h2
    · exact digits_no_colon hsd h1
    · rcases List.mem_cons.mp h2 with h3 | h4
      · exact absurd h3.symm (by decide)
      · exact digits_no_colon hfd h4
  have hws : ∀ c ∈ natDigits (ms / 60000)
      ++ ':' :: (padLeftZeros (natDigits (ms % 60000 / 1000)) 2
        ++ '.' :: padLeftZeros (natDigits (ms % 1000)) 3), isWS c = false := by
    intro c hc
    rcases List.mem_append.mp hc with h1 | h2
    · exact digit_not_ws (hmd c h1)
    · rcases List.mem_cons.mp h2 with h3 | h4
      · subst h3; decide
      · rcases List.mem_append.mp h4 with h5 | h6
        · exact digit_not_ws (hsd c h5)
        · rcases List.mem_cons.mp h6 with h7 | h8
          · subst h7; decide
          · exact digit_not_ws (hfd c h8)
  have hcm : ',' ∉ padLeftZeros (natDigits (ms % 60000 / 1000)) 2
      ++ '.' :: padLeftZeros (natDigits (ms % 1000)) 3 := by
    intro hm
    rcases List.mem_append.mp hm with h1 | h2
    · exact digits_no_comma hsd h1
    · rcases List.mem_cons.mp h2 with h3 | h4
      · exact absurd h3.symm (by decide)
      · exact digits_no_comma hfd h4
  have hjs1 : jsNumber (natDigits (ms / 60000)) = some ((ms / 60000 : ℕ) : ℚ) := by
    rw [jsNumber_digits hmne hmd, natDigits_val]
  have hjs2 : jsNumber (replaceCommaDot (padLeftZeros (natDigits (ms % 60000 / 1000)) 2
      ++ '.' :: padLeftZeros (natDigits (ms % 1000)) 3))
      = some (((ms % 60000 / 1000 : ℕ) : ℚ)
          + ((ms % 1000 : ℕ) : ℚ) / (10 : ℚ) ^ (3 : ℕ)) := by
    rw [replaceCommaDot_eq_self hcm, jsNumber_digits_dot hsne hsd hfd, hsval, hfval, hflen]
  rw [parseTimeToMs_colon_some hmne (digits_no_colon hmd) hrc hws hjs1 hjs2]
  congr 1
  have key : (((ms / 60000 : ℕ) : ℚ) * 60 + (((ms % 60000 / 1000 : ℕ) : ℚ)
      + ((ms % 1000 : ℕ) : ℚ) / (10 : ℚ) ^ (3 : ℕ))) * 1000
      = ((60000 * (ms / 60000) + 1000 * (ms % 60000 / 1000) + ms % 1000 : ℕ) : ℚ) := by
    push_cast
    field_simp
    ring
  have hsum : 60000 * (ms / 60000) + 1000 * (ms % 60000 / 1000) + ms % 1000 = ms := by
    omega
  rw [key, hsum, jsRound_natCast]

/-- On a string that starts with digits followed by a colon, the plain-number
regex of the GamesHome variant fails. -/
theorem plainNumTest_colon {md : List Char} (rest : List Char)
    (hmd : ∀ c ∈ md, isDigitCh c = true) :
    HomeVariant.plainNumTest (md ++ ':' :: rest) = false := by
  unfold HomeVariant.plainNumTest
  rw [takeWhile_append_all _ hmd, dropWhile_append_all _ hmd]
  have hnd : isDigitCh ':' = false := by decide
  simp only [List.takeWhile_cons, List.dropWhile_cons, hnd, Bool.false_eq_true, if_false,
    List.append_nil]
  by_cases hem : md.isEmpty
  · rw [if_pos hem]
  · rw [if_neg hem, if_neg (List.cons_ne_nil ':' rest),
      if_neg (fun h : (':' :: rest).head? = some '.' => by
        rw [List.head?_cons] at h
        exact absurd (Option.some.inj h) (by decide))]

/-- The time regex of the GamesHome variant matches a canonical
`mm:ss.mmm` string, capturing the three digit groups. -/
theorem timeRegexMatch_canonical {md sd fd : List Char}
    (hmne : md ≠ []) (hmd : ∀ c ∈ md, isDigitCh c = true)
    (hsne : sd ≠ []) (hsd : ∀ c ∈ sd, isDigitCh c = true) (hslen : sd.length ≤ 2)
    (hfne : fd ≠ []) (hfd : ∀ c ∈ fd, isDigitCh c = true) (hflen : fd.length ≤ 3) :
    HomeVariant.timeRegexMatch (md ++ ':' :: (sd ++ '.' :: fd)) = some (md, sd, some fd) := by
  unfold HomeVariant.timeRegexMatch
  have hnd : isDigitCh ':' = false := by decide
  have hnd2 : isDigitCh '.' = false := by decide
  rw [takeWhile_append_all _ hmd, dropWhile_append_all _ hmd]
  simp only [List.takeWhile_cons, List.dropWhile_cons, hnd, Bool.false_eq_true, if_false,
    List.append_nil]
  rw [if_neg (by simp [List.isEmpty_iff, hmne]), if_pos (by rw [List.head?_cons])]
  simp only [List.tail_cons]
  rw [takeWhile_append_all _ hsd, dropWhile_append_all _ hsd]
  simp only [List.takeWhile_cons, List.dropWhile_cons, hnd2, Bool.false_eq_true, if_false,
    List.append_nil]
  rw [if_neg (by push_neg; exact ⟨hsne, by omega⟩)]
  rw [if_neg (List.cons_ne_nil '.' fd), if_pos (by rw [List.head?_cons])]
  simp only [List.tail_cons]
  rw [takeWhile_eq_self_of hfd, dropWhile_eq_nil_of hfd]
  rw [if_neg (by push_neg; exact ⟨hfne, by omega, rfl⟩)]

/-- `padEnd(3, "0")` then `slice(0, 3)` is the identity on three-character
strings. -/
theorem padRight_take_exact {fd : List Char} (h : fd.length = 3) :
    (padRightZeros fd 3).take 3 = fd := by
  unfold padRightZeros
  rw [h]
  simp only [Nat.sub_self, List.replicate_zero, List.append_nil]
  rw [← h, List.take_length]

/-- The GamesHome-variant parser on a canonical `mm:ss.mmm` string with
`ss < 60`: minutes, seconds and the three millisecond digits are decoded
positionally. -/
theorem parseTimeToMs2_canonical {md sd fd : List Char}
    (hmne : md ≠ []) (hmd : ∀ c ∈ md, isDigitCh c = true)
    (hsne : sd ≠ []) (hsd : ∀ c ∈ sd, isDigitCh c = true) (hslen : sd.length ≤ 2)
    (hfne : fd ≠ []) (hfd : ∀ c ∈ fd, isDigitCh c = true) (hflen3 : fd.length = 3)
    (hss : digitsVal sd < 60) :
    HomeVariant.parseTimeToMs (md ++ ':' :: (sd ++ '.' :: fd))
      = some ((digitsVal md * 60000 + digitsVal sd * 1000 + digitsVal fd : ℕ) : ℤ) := by
  have hws : ∀ c ∈ md ++ ':' :: (sd ++ '.' :: fd), isWS c = false := by
    intro c hc
    rcases List.mem_append.mp hc with h1 | h2
    · exact digit_not_ws (hmd c h1)
    · rcases List.mem_cons.mp h2 with h3 | h4
      · subst h3; decide
      · rcases List.mem_append.mp h4 with h5 | h6
        · exact digit_not_ws (hsd c h5)
        · rcases List.mem_cons.mp h6 with h7 | h8
          · subst h7; decide
          · exact digit_not_ws (hfd c h8)
  have hne2 : md ++ ':' :: (sd ++ '.' :: fd) ≠ [] := by
    intro h
    exact hmne (List.append_eq_nil.mp h).1
  unfold HomeVariant.parseTimeToMs
  rw [trimList_eq_self hws]
  rw [if_neg (by simp [List.isEmpty_iff, hne2])]
  rw [plainNumTest_colon _ hmd]
  simp only [Bool.false_eq_true, if_false]
  rw [timeRegexMatch_canonical hmne hmd hsne hsd hslen hfne hfd (le_of_eq hflen3)]
  show (if 60 ≤ digitsVal sd then none
    else some ((digitsVal md * 60000 + digitsVal sd * 1000
      + digitsVal ((padRightZeros ((some fd).getD (strL "0")) 3).take 3) : ℕ) : ℤ)) = _
  rw [if_neg (Nat.not_le.mpr hss)]
  have : (some fd).getD (strL "0") = fd := rfl
  rw [this, padRight_take_exact hflen3]

/-- Round trip for the GamesHome variant: it also recovers the exact value
from a `formatMs` rendering. -/
theorem formatMs_parse2 (ms : ℕ) :
    HomeVariant.parseTimeToMs (GamesResults.formatMs (some ms)) = some (ms : ℤ) := by
  obtain ⟨hmd, hmne, hsd, hslen, hsval, hfd, hflen, hfval⟩ := formatMs_components ms
  have hsne : padLeftZeros (natDigits (ms % 60000 / 1000)) 2 ≠ [] := by
    intro h
    rw [h] at hslen
    simp at hslen
  have hfne : padLeftZeros (natDigits (ms % 1000)) 3 ≠ [] := by
    intro h
    rw [h] at hflen
    simp at hflen
  rw [formatMs_eq]
  rw [parseTimeToMs2_canonical hmne hmd hsne hsd (le_of_eq hslen) hfne hfd hflen
    (by rw [hsval]; omega)]
  rw [hsval, hfval, natDigits_val]
  congr 1
  have : ms / 60000 * 60000 + ms % 60000 / 1000 * 1000 + ms % 1000 = ms := by omega
  rw [this]


/-- A scoring mode other than `time_best` never reads the time input. -/
theorem timeStep_of_ne {mode : GamesResults.ScoringMode} (row : GamesResults.RowVM)
    (h : mode ≠ GamesResults.ScoringMode.time_best) :
    GamesResults.timeStep mode row = .ok none := by
  unfold GamesResults.timeStep
  rw [if_neg h]

/-- A scoring mode other than `distance_best` never reads the distance
input. -/
theorem distStep_of_ne {mode : GamesResults.ScoringMode} (row : GamesResults.RowVM)
    (h : mode ≠ GamesResults.ScoringMode.distance_best) :
    GamesResults.distStep mode row = .ok none := by
  unfold GamesResults.distStep
  rw [if_neg h]

/-- In `time_best` mode a non-blank unparseable time input is an error. -/
theorem timeStep_err {row : GamesResults.RowVM}
    (h1 : (trimList row.timeStr).isEmpty = false)
    (h2 : GamesResults.parseTimeToMs row.timeStr = none) :
    GamesResults.timeStep GamesResults.ScoringMode.time_best row
      = .error (strL "Zeit ungültig. Format z.B. \"1:23.456\" oder \"83.456\".") := by
  unfold GamesResults.timeStep
  rw [if_pos rfl, if_pos (by simp [h1]), h2]

/-- In `distance_best` mode a non-blank unparseable distance input is an
error. -/
theorem distStep_err {row : GamesResults.RowVM}
    (h1 : (trimList row.distanceStr).isEmpty = false)
    (h2 : GamesResults.parseFloatOrNull row.distanceStr = none) :
    GamesResults.distStep GamesResults.ScoringMode.distance_best row
      = .error (strL "Distanz ungültig. Format z.B. 12.34") := by
  unfold GamesResults.distStep
  rw [if_pos rfl, if_pos (by simp [h1]), h2]

/-- Evaluation of `buildPayload` once the three context guards pass. -/
theorem buildPayload_eval {aev : Option (List Char)} (run : GamesResults.RunRef)
    (mode : GamesResults.ScoringMode) (dt : List Char → List Char) (now : List Char)
    (row : GamesResults.RowVM) (haev : (aev.getD []).isEmpty = false) :
    GamesResults.buildPayload aev (some run) (some mode) dt now row
      = (match GamesResults.timeStep mode row with
        | .error m => GamesResults.BuildRes.err m
        | .ok time_ms =>
          match GamesResults.distStep mode row with
          | .error m => GamesResults.BuildRes.err m
          | .ok distance =>
            GamesResults.BuildRes.ok
              [(strL "event_id", .vstr (aev.getD [])),
               (strL "discipline_id", .vstr run.discipline_id),
               (strL "run_id", .vstr run.id),
               (strL "team_id", .vstr row.team_id),
               (strL "points_manual", .ofIntOpt (GamesResults.parseIntOrNull row.pointsManualStr)),
               (strL "time_ms", .ofIntOpt time_ms),
               (strL "distance", .ofRatOpt distance),
               (strL "achieved_at", .ofStrOpt (if ¬row.achievedAtLocal.isEmpty
                  then some (dt row.achievedAtLocal) else none)),
               (strL "note", .ofStrOpt (if ¬(trimList row.noteStr).isEmpty
                  then some (trimList row.noteStr) else none)),
               (strL "updated_at", .vstr now)]) := by
  simp only [GamesResults.buildPayload, haev, Bool.false_eq_true, if_false]

/-- Looking up `time_ms` in a payload object returns its sixth value. -/
theorem lookup_payload_time (v1 v2 v3 v4 v5 v6 v7 v8 v9 v10 : GamesResults.JsVal) :
    List.lookup (strL "time_ms")
      [(strL "event_id", v1), (strL "discipline_id", v2), (strL "run_id", v3),
       (strL "team_id", v4), (strL "points_manual", v5), (strL "time_ms", v6),
       (strL "distance", v7), (strL "achieved_at", v8), (strL "note", v9),
       (strL "updated_at", v10)] = some v6 := by
  have e1 : (strL "time_ms" == strL "event_id") = false := by decide
  have e2 : (strL "time_ms" == strL "discipline_id") = false := by decide
  have e3 : (strL "time_ms" == strL "run_id") = false := by decide
  have e4 : (strL "time_ms" == strL "team_id") = false := by decide
  have e5 : (strL "time_ms" == strL "points_manual") = false := by decide
  have e6 : (strL "time_ms" == strL "time_ms") = true := by decide
  simp [List.lookup, e1, e2, e3, e4, e5, e6]

/-- Looking up `distance` in a payload object returns its seventh value. -/
theorem lookup_payload_distance (v1 v2 v3 v4 v5 v6 v7 v8 v9 v10 : GamesResults.JsVal) :
    List.lookup (strL "distance")
      [(strL "event_id", v1), (strL "discipline_id", v2), (strL "run_id", v3),
       (strL "team_id", v4), (strL "points_manual", v5), (strL "time_ms", v6),
       (strL "distance", v7), (strL "achieved_at", v8), (strL "note", v9),
       (strL "updated_at", v10)] = some v7 := by
  have e1 : (strL "distance" == strL "event_id") = false := by decide
  have e2 : (strL "distance" == strL "discipline_id") = false := by decide
  have e3 : (strL "distance" == strL "run_id") = false := by decide
  have e4 : (strL "distance" == strL "team_id") = false := by decide
  have e5 : (strL "distance" == strL "points_manual") = false := by decide
  have e6 : (strL "distance" == strL "time_ms") = false := by decide
  have e7 : (strL "distance" == strL "distance") = true := by decide
  simp [List.lookup, e1, e2, e3, e4, e5, e6, e7]

/-- Looking up `points_manual` in a payload object returns its fifth value. -/
theorem lookup_payload_points (v1 v2 v3 v4 v5 v6 v7 v8 v9 v10 : GamesResults.JsVal) :
    List.lookup (strL "points_manual")
      [(strL "event_id", v1), (strL "discipline_id", v2), (strL "run_id", v3),
       (strL "team_id", v4), (strL "points_manual", v5), (strL "time_ms", v6),
       (strL "distance", v7), (strL "achieved_at", v8), (strL "note", v9),
       (strL "updated_at", v10)] = some v5 := by
  have e1 : (strL "points_manual" == strL "event_id") = false := by decide
  have e2 : (strL "points_manual" == strL "discipline_id") = false := by decide
  have e3 : (strL "points_manual" == strL "run_id") = false := by decide
  have e4 : (strL "points_manual" == strL "team_id") = false := by decide
  have e5 : (strL "points_manual" == strL "points_manual") = true := by decide
  simp [List.lookup, e1, e2, e3, e4, e5]

/-- The key list of every payload object built by `buildPayload`. -/
theorem buildPayload_keys {aev : Option (List Char)} {run : Option GamesResults.RunRef}
    {mode : Option GamesResults.ScoringMode} {dt : List Char → List Char}
    {now : List Char} {row : GamesResults.RowVM}
    {fields : List (List Char × GamesResults.JsVal)}
    (h : GamesResults.buildPayload aev run mode dt now row = GamesResults.BuildRes.ok fields) :
    fields.map Prod.fst =
      [strL "event_id", strL "discipline_id", strL "run_id", strL "team_id",
       strL "points_manual", strL "time_ms", strL "distance", strL "achieved_at",
       strL "note", strL "updated_at"] := by
  unfold GamesResults.buildPayload at h
  split at h
  · exact GamesResults.BuildRes.noConfusion h
  · split at h
    · exact GamesResults.BuildRes.noConfusion h
    · split at h
      · exact GamesResults.BuildRes.noConfusion h
      · split at h
        · exact GamesResults.BuildRes.noConfusion h
        · split at h
          · exact GamesResults.BuildRes.noConfusion h
          · rw [GamesResults.BuildRes.ok.injEq] at h
            subst h
            rfl

/-- Keys of any write emitted by `saveRow`: exactly the ten payload keys. -/
theorem saveRowWrite_keys {aev : Option (List Char)} {run : Option GamesResults.RunRef}
    {mode : Option GamesResults.ScoringMode} {dt : List Char → List Char}
    {now : List Char} {row : GamesResults.RowVM} {existing : Option (List Char)}
    {w : GamesResults.DbWrite}
    (h : GamesResults.saveRowWrite aev run mode dt now row existing = some w) :
    w.fields.map Prod.fst =
      [strL "event_id", strL "discipline_id", strL "run_id", strL "team_id",
       strL "points_manual", strL "time_ms", strL "distance", strL "achieved_at",
       strL "note", strL "updated_at"] := by
  unfold GamesResults.saveRowWrite at h
  cases hb : GamesResults.buildPayload aev run mode dt now row with
  | err m =>
    rw [hb] at h
    exact Option.noConfusion h
  | ok fields =>
    rw [hb] at h
    have hkeys := buildPayload_keys hb
    cases existing with
    | some rid =>
      have hw := Option.some.inj h
      subst hw
      exact hkeys
    | none =>
      have hw := Option.some.inj h
      subst hw
      exact hkeys

/-- Every element of a `revertVm` result that carries the saved id has been
reset field-by-field to the original row's values. -/
theorem revertVm_fields (isoToLocal : Option (List Char) → List Char)
    (numToStr : ℚ → List Char) (l : List GamesRuns.VmRun) (id : List Char)
    (original : GamesRuns.RunRow) :
    ∀ x ∈ GamesRuns.revertVm isoToLocal numToStr l id original, x.id = id →
      x.name = original.name.getD []
      ∧ x.status = GamesRuns.normalizeStatus original.status
      ∧ x.scheduled_local = isoToLocal original.scheduled_at
      ∧ x.started_local = isoToLocal original.started_at
      ∧ x.finished_local = isoToLocal original.finished_at
      ∧ x.sort_order = (match original.sort_order with
          | some q => numToStr q
          | none => []) := by
  intro x hx hid
  obtain ⟨z, hz, rfl⟩ := List.mem_map.mp hx
  by_cases h : z.id = id
  · rw [if_pos h]
    exact ⟨rfl, rfl, rfl, rfl, rfl, rfl⟩
  · rw [if_neg h] at hid
    exact absurd hid h


end FFH

namespace FFH.Claims


open FFH FFH.GamesResults

/-- C1: `parseTimeToMs` in GamesResults maps `"m:ss.SSS"` (and `"m:ss"`)
to `Math.round((m*60 + s.SSS)*1000)`, in particular `"1:23.456"` to
`83456`; a plain decimal string is seconds times 1000, except that an
integer value `≥ 1000` is returned unchanged as milliseconds; blank and
non-numeric input yield `null`. -/
theorem C1_parseTimeToMs_spec :
    (GamesResults.parseTimeToMs (strL "1:23.456") = some 83456)
    ∧ (∀ md sd fd : List Char, md ≠ [] → (∀ c ∈ md, isDigitCh c = true) →
        sd ≠ [] → (∀ c ∈ sd, isDigitCh c = true) → (∀ c ∈ fd, isDigitCh c = true) →
        GamesResults.parseTimeToMs (md ++ ':' :: (sd ++ '.' :: fd))
          = some (jsRound (((digitsVal md : ℚ) * 60
              + ((digitsVal sd : ℚ) + (digitsVal fd : ℚ) / (10 : ℚ) ^ fd.length)) * 1000)))
    ∧ (∀ md sd : List Char, md ≠ [] → (∀ c ∈ md, isDigitCh c = true) →
        sd ≠ [] → (∀ c ∈ sd, isDigitCh c = true) →
        GamesResults.parseTimeToMs (md ++ ':' :: sd)
          = some (jsRound (((digitsVal md : ℚ) * 60 + (digitsVal sd : ℚ)) * 1000)))
    ∧ (∀ ds : List Char, ds ≠ [] → (∀ c ∈ ds, isDigitCh c = true) →
        GamesResults.parseTimeToMs ds
          = if 1000 ≤ digitsVal ds then some (digitsVal ds : ℤ)
            else some ((digitsVal ds : ℤ) * 1000))
    ∧ (∀ ds fs : List Char, ds ≠ [] → (∀ c ∈ ds, isDigitCh c = true) →
        (∀ c ∈ fs, isDigitCh c = true) →
        GamesResults.parseTimeToMs (ds ++ '.' :: fs)
          = (if ((digitsVal ds : ℚ) + (digitsVal fs : ℚ) / (10 : ℚ) ^ fs.length).den = 1
                ∧ 1000 ≤ (digitsVal ds : ℚ) + (digitsVal fs : ℚ) / (10 : ℚ) ^ fs.length
             then some ((digitsVal ds : ℚ) + (digitsVal fs : ℚ) / (10 : ℚ) ^ fs.length).num
             else some (jsRound (((digitsVal ds : ℚ)
                + (digitsVal fs : ℚ) / (10 : ℚ) ^ fs.length) * 1000))))
    ∧ (∀ cs : List Char, trimList cs = [] → GamesResults.parseTimeToMs cs = none)
    ∧ (∀ cs : List Char, ':' ∉ trimList cs →
        jsNumber (replaceCommaDot (trimList cs)) = none →
        GamesResults.parseTimeToMs cs = none) := by
  refine ⟨?_, ?_, ?_, ?_, ?_, ?_, ?_⟩
  · -- the concrete example from the claim
    have hj1 : jsNumber ['1'] = some ((digitsVal ['1'] : ℕ) : ℚ) :=
      jsNumber_digits (by decide) (by decide)
    have hj2 : jsNumber (replaceCommaDot (['2', '3'] ++ '.' :: ['4', '5', '6']))
        = some ((digitsVal ['2', '3'] : ℚ)
            + (digitsVal ['4', '5', '6'] : ℚ) / (10 : ℚ) ^ (['4', '5', '6'] : List Char).length) := by
      rw [replaceCommaDot_eq_self (by decide)]
      exact jsNumber_digits_dot (by decide) (by decide) (by decide)
    have h := @parseTimeToMs_colon_some ['1'] (['2', '3'] ++ '.' :: ['4', '5', '6'])
      (by decide) (by decide) (by decide) (by decide) _ _ hj1 hj2
    have he : strL "1:23.456" = ['1'] ++ ':' :: (['2', '3'] ++ '.' :: ['4', '5', '6']) := by decide
    rw [he, h]
    have hd1 : digitsVal ['1'] = 1 := by decide
    have hd2 : digitsVal ['2', '3'] = 23 := by decide
    have hd3 : digitsVal ['4', '5', '6'] = 456 := by decide
    rw [hd1, hd2, hd3]
    norm_num [jsRound]
  · intro md sd fd hmne hmd hsne hsd hfd
    have hrest : ':' ∉ sd ++ '.' :: fd := by
      intro hm
      rcases List.mem_append.mp hm with h1 | h2
      · exact digits_no_colon hsd h1
      · rcases List.mem_cons.mp h2 with h3 | h4
        · exact absurd h3.symm (by decide)
        · exact digits_no_colon hfd h4
    have hws : ∀ c ∈ md ++ ':' :: (sd ++ '.' :: fd), isWS c = false := by
      intro c hc
      rcases List.mem_append.mp hc with h1 | h2
      · exact digit_not_ws (hmd c h1)
      · rcases List.mem_cons.mp h2 with h3 | h4
        · subst h3; decide
        · rcases List.mem_append.mp h4 with h5 | h6
          · exact digit_not_ws (hsd c h5)
          · rcases List.mem_cons.mp h6 with h7 | h8
            · subst h7; decide
            · exact digit_not_ws (hfd c h8)
    have hcomma : ',' ∉ sd ++ '.' :: fd := by
      intro hm
      rcases List.mem_append.mp hm with h1 | h2
      · exact digits_no_comma hsd h1
      · rcases List.mem_cons.mp h2 with h3 | h4
        · exact absurd h3.symm (by decide)
        · exact digits_no_comma hfd h4
    rw [parseTimeToMs_colon_some hmne (digits_no_colon hmd) hrest hws
      (jsNumber_digits hmne hmd)
      (by rw [replaceCommaDot_eq_self hcomma]; exact jsNumber_digits_dot hsne hsd hfd)]
  · intro md sd hmne hmd hsne hsd
    have hws : ∀ c ∈ md ++ ':' :: sd, isWS c = false := by
      intro c hc
      rcases List.mem_append.mp hc with h1 | h2
      · exact digit_not_ws (hmd c h1)
      · rcases List.mem_cons.mp h2 with h3 | h4
        · subst h3; decide
        · exact digit_not_ws (hsd c h4)
    rw [parseTimeToMs_colon_some hmne (digits_no_colon hmd) (digits_no_colon hsd) hws
      (jsNumber_digits hmne hmd)
      (by rw [replaceCommaDot_eq_self (digits_no_comma hsd)]; exact jsNumber_digits hsne hsd)]
  · intro ds hne hd
    rw [parseTimeToMs_plain_some hne (digits_no_colon hd) (digits_no_ws hd)
      (by rw [replaceCommaDot_eq_self (digits_no_comma hd)]; exact jsNumber_digits hne hd)]
    have hden : ((digitsVal ds : ℚ)).den = 1 := Rat.den_natCast _
    by_cases hge : 1000 ≤ digitsVal ds
    · have hgeq : (1000 : ℚ) ≤ (digitsVal ds : ℚ) := by exact_mod_cast hge
      rw [if_pos ⟨hden, hgeq⟩, if_pos hge]
      have hcast : ((digitsVal ds : ℤ) : ℚ) = (digitsVal ds : ℚ) := by push_cast; ring
      rw [← hcast, jsTrunc_intCast]
    · have hgeq : ¬((1000 : ℚ) ≤ (digitsVal ds : ℚ)) := by exact_mod_cast hge
      rw [if_neg (fun hand => hgeq hand.2), if_neg hge]
      have hc : ((digitsVal ds : ℚ)) * 1000 = ((digitsVal ds * 1000 : ℕ) : ℚ) := by
        push_cast; ring
      rw [hc, jsRound_natCast]
      congr 1
  · intro ds fs hne hd hf
    have hne2 : ds ++ '.' :: fs ≠ [] := by
      intro h
      exact hne (List.append_eq_nil.mp h).1
    have hnc : ':' ∉ ds ++ '.' :: fs := by
      intro hm
      rcases List.mem_append.mp hm with h1 | h2
      · exact digits_no_colon hd h1
      · rcases List.mem_cons.mp h2 with h3 | h4
        · exact absurd h3.symm (by decide)
        · exact digits_no_colon hf h4
    have hws : ∀ c ∈ ds ++ '.' :: fs, isWS c = false := by
      intro c hc
      rcases List.mem_append.mp hc with h1 | h2
      · exact digit_not_ws (hd c h1)
      · rcases List.mem_cons.mp h2 with h3 | h4
        · subst h3; decide
        · exact digit_not_ws (hf c h4)
    have hcm : ',' ∉ ds ++ '.' :: fs := by
      intro hm
      rcases List.mem_append.mp hm with h1 | h2
      · exact digits_no_comma hd h1
      · rcases List.mem_cons.mp h2 with h3 | h4
        · exact absurd h3.symm (by decide)
        · exact digits_no_comma hf h4
    rw [parseTimeToMs_plain_some hne2 hnc hws
      (by rw [replaceCommaDot_eq_self hcm]; exact jsNumber_digits_dot hne hd hf)]
    by_cases hcond : ((digitsVal ds : ℚ) + (digitsVal fs : ℚ) / (10 : ℚ) ^ fs.length).den = 1
        ∧ 1000 ≤ (digitsVal ds : ℚ) + (digitsVal fs : ℚ) / (10 : ℚ) ^ fs.length
    · rw [if_pos hcond, if_pos hcond, jsTrunc_den_one hcond.1]
    · rw [if_neg hcond, if_neg hcond]
  · intro cs h
    unfold GamesResults.parseTimeToMs
    rw [h]
    rfl
  · intro cs hnc hnum
    unfold GamesResults.parseTimeToMs
    by_cases hem : (trimList cs).isEmpty
    · rw [if_pos hem]
    · rw [if_neg hem, if_neg hnc, hnum]

/-- Witness for C1: the general colon rule instantiated at `"2:03.5"`
evaluates to `123500` ms, and the plain-integer rule at `"2000"` returns
`2000` unchanged. -/
theorem C1_witness :
    GamesResults.parseTimeToMs (strL "2:03.5") = some 123500
    ∧ GamesResults.parseTimeToMs (strL "2000") = some 2000 := by
  constructor
  · have h := C1_parseTimeToMs_spec.2.1 ['2'] ['0', '3'] ['5']
      (by decide) (by decide) (by decide) (by decide) (by decide)
    have he : strL "2:03.5" = ['2'] ++ ':' :: (['0', '3'] ++ '.' :: ['5']) := by decide
    rw [he, h]
    have hd1 : digitsVal ['2'] = 2 := by decide
    have hd2 : digitsVal ['0', '3'] = 3 := by decide
    have hd3 : digitsVal ['5'] = 5 := by decide
    rw [hd1, hd2, hd3]
    norm_num [jsRound]
  · have h := C1_parseTimeToMs_spec.2.2.2.1 ['2', '0', '0', '0'] (by decide) (by decide)
    have he : strL "2000" = ['2', '0', '0', '0'] := by decide
    have hv : digitsVal ['2', '0', '0', '0'] = 2000 := by decide
    rw [he, h, hv]
    norm_num

/-- C8: formatting a non-negative millisecond count with `formatMs` yields
`"m:ss.SSS"` with zero-padded two-digit seconds and three-digit
milliseconds, and `parseTimeToMs` parses it back to exactly the original
value. -/
theorem C8_formatMs_parse_roundtrip : ∀ ms : ℕ,
    (∃ sd fd : List Char, GamesResults.formatMs (some ms)
        = natDigits (ms / 60000) ++ ':' :: (sd ++ '.' :: fd)
        ∧ sd.length = 2 ∧ fd.length = 3
        ∧ digitsVal sd = ms % 60000 / 1000 ∧ digitsVal fd = ms % 1000)
    ∧ GamesResults.parseTimeToMs (GamesResults.formatMs (some ms)) = some (ms : ℤ) := by
  intro ms
  obtain ⟨_, _, _, hslen, hsval, _, hflen, hfval⟩ := formatMs_components ms
  exact ⟨⟨_, _, formatMs_eq ms, hslen, hflen, hsval, hfval⟩, formatMs_parse ms⟩

/-- C9 counterexample: the two `parseTimeToMs` implementations differ on
the input `"2000"`: the GamesResults version treats a plain integer
`≥ 1000` as milliseconds and returns `2000`, while the GamesHome variant
treats every plain number as seconds and returns `2000000`. -/
theorem C9_counterexample :
    GamesResults.parseTimeToMs (strL "2000") = some 2000
    ∧ HomeVariant.parseTimeToMs (strL "2000") = some 2000000
    ∧ GamesResults.parseTimeToMs (strL "2000")
        ≠ HomeVariant.parseTimeToMs (strL "2000") := by
  refine ⟨?_, ?_, ?_⟩
  · simp +decide [GamesResults.parseTimeToMs, trimList, splitOnColon, replaceCommaDot,
      jsNumber, parseUnsignedDec, digitsVal, digitVal, isDigitCh, isWS, jsRound, jsTrunc,
      strL, List.dropWhile, List.takeWhile, List.head?, List.getD]
  · simp +decide [HomeVariant.parseTimeToMs, HomeVariant.plainNumTest,
      HomeVariant.timeRegexMatch, trimList, jsNumber, parseUnsignedDec, digitsVal,
      digitVal, isDigitCh, isWS, jsRound, strL, padRightZeros,
      List.dropWhile, List.takeWhile, List.head?, List.getD]
    norm_num
  · intro h
    have h1 : GamesResults.parseTimeToMs (strL "2000") = some 2000 := by
      simp +decide [GamesResults.parseTimeToMs, trimList, splitOnColon, replaceCommaDot,
        jsNumber, parseUnsignedDec, digitsVal, digitVal, isDigitCh, isWS, jsRound, jsTrunc,
        strL, List.dropWhile, List.takeWhile, List.head?, List.getD]
    have h2 : HomeVariant.parseTimeToMs (strL "2000") = some 2000000 := by
      simp +decide [HomeVariant.parseTimeToMs, HomeVariant.plainNumTest,
        HomeVariant.timeRegexMatch, trimList, jsNumber, parseUnsignedDec, digitsVal,
        digitVal, isDigitCh, isWS, jsRound, strL, padRightZeros,
        List.dropWhile, List.takeWhile, List.head?, List.getD]
      norm_num
    rw [h1, h2] at h
    simp at h

/-- C9 amended: the two implementations do not compute the same function on
all strings (see the counterexample at `"2000"`), but they do agree on every
canonical time string produced by `formatMs`, where both return exactly the
stored millisecond count. -/
theorem C9_amended_agree_on_formatMs : ∀ ms : ℕ,
    HomeVariant.parseTimeToMs (GamesResults.formatMs (some ms))
      = GamesResults.parseTimeToMs (GamesResults.formatMs (some ms))
    ∧ GamesResults.parseTimeToMs (GamesResults.formatMs (some ms)) = some (ms : ℤ) := by
  intro ms
  rw [formatMs_parse ms, formatMs_parse2 ms]
  exact ⟨rfl, rfl⟩

/-- C10: `normalizeStatus` is total with range `{planned, running, done}`:
it returns `running`/`done` exactly when the lowercased input is that word,
`planned` for every other input (including null), it is idempotent on the
canonical status strings, and every view-model row built by `loadRuns`
carries a status in this enum obtained by normalizing its row. -/
theorem C10_normalizeStatus_spec :
    (∀ s : Option (List Char),
      GamesRuns.normalizeStatus s = GamesRuns.RunStatus.planned
      ∨ GamesRuns.normalizeStatus s = GamesRuns.RunStatus.running
      ∨ GamesRuns.normalizeStatus s = GamesRuns.RunStatus.done)
    ∧ (∀ s : Option (List Char),
        GamesRuns.normalizeStatus s = GamesRuns.RunStatus.running
          ↔ toLowerList (s.getD []) = strL "running")
    ∧ (∀ s : Option (List Char),
        GamesRuns.normalizeStatus s = GamesRuns.RunStatus.done
          ↔ toLowerList (s.getD []) = strL "done")
    ∧ (∀ s : Option (List Char), toLowerList (s.getD []) ≠ strL "running" →
        toLowerList (s.getD []) ≠ strL "done" →
        GamesRuns.normalizeStatus s = GamesRuns.RunStatus.planned)
    ∧ (∀ r : GamesRuns.RunStatus,
        GamesRuns.normalizeStatus (some (GamesRuns.statusStr r)) = r)
    ∧ (∀ (isoToLocal : Option (List Char) → List Char) (numToStr : ℚ → List Char)
        (rows : List GamesRuns.RunRow) (x : GamesRuns.VmRun),
        x ∈ GamesRuns.loadRunsVm isoToLocal numToStr rows →
        ∃ r ∈ rows, x.status = GamesRuns.normalizeStatus r.status) := by
  have hrd : strL "running" ≠ strL "done" := by decide
  refine ⟨?_, ?_, ?_, ?_, ?_, ?_⟩
  · intro s
    unfold GamesRuns.normalizeStatus
    by_cases h1 : toLowerList (s.getD []) = strL "running"
    · rw [if_pos h1]; exact Or.inr (Or.inl rfl)
    · rw [if_neg h1]
      by_cases h2 : toLowerList (s.getD []) = strL "done"
      · rw [if_pos h2]; exact Or.inr (Or.inr rfl)
      · rw [if_neg h2]; exact Or.inl rfl
  · intro s
    unfold GamesRuns.normalizeStatus
    by_cases h1 : toLowerList (s.getD []) = strL "running"
    · rw [if_pos h1]; simp [h1]
    · rw [if_neg h1]
      by_cases h2 : toLowerList (s.getD []) = strL "done"
      · rw [if_pos h2]; simp [h1]
      · rw [if_neg h2]; simp [h1]
  · intro s
    unfold GamesRuns.normalizeStatus
    by_cases h1 : toLowerList (s.getD []) = strL "running"
    · rw [if_pos h1]
      constructor
      · intro h; cases h
      · intro h; exact absurd (h1.symm.trans h) hrd
    · rw [if_neg h1]
      by_cases h2 : toLowerList (s.getD []) = strL "done"
      · rw [if_pos h2]; simp [h2]
      · rw [if_neg h2]; simp [h2]
  · intro s h1 h2
    unfold GamesRuns.normalizeStatus
    rw [if_neg h1, if_neg h2]
  · intro r
    cases r <;> decide
  · intro isoToLocal numToStr rows x hx
    obtain ⟨r, hr, rfl⟩ := List.mem_map.mp hx
    exact ⟨r, hr, rfl⟩

/-- Witness for C10: an unknown status string normalizes to `planned`. -/
theorem C10_witness :
    GamesRuns.normalizeStatus (some (strL "Weird")) = GamesRuns.RunStatus.planned :=
  C10_normalizeStatus_spec.2.2.2.1 (some (strL "Weird")) (by decide) (by decide)

/-- C6: `isRlsError` holds exactly when the lowercased message contains one
of the four substrings `"row level security"`, `"rls"`, `"policy"`,
`"permission denied"`, and the save handlers toast the dedicated RLS text
exactly in that case, surfacing the raw message otherwise. -/
theorem C6_isRlsError_spec :
    (∀ msg : List Char, GamesResults.isRlsError msg = true ↔
      ((∃ pre post, toLowerList msg = pre ++ strL "row level security" ++ post)
        ∨ (∃ pre post, toLowerList msg = pre ++ strL "rls" ++ post)
        ∨ (∃ pre post, toLowerList msg = pre ++ strL "policy" ++ post)
        ∨ (∃ pre post, toLowerList msg = pre ++ strL "permission denied" ++ post)))
    ∧ (∀ msg : List Char, GamesResults.isRlsError msg = true →
        GamesResults.saveRowErrorToast msg
            = strL "Save geblockt: RLS/Policy verhindert Write auf games_run_results."
          ∧ GamesResults.saveAllDirtyErrorToast msg
            = strL "Save geblockt: RLS/Policy verhindert Write auf games_run_results.")
    ∧ (∀ msg : List Char, GamesResults.isRlsError msg = false →
        GamesResults.saveRowErrorToast msg = strL "Save Fehler: " ++ msg
          ∧ GamesResults.saveAllDirtyErrorToast msg = strL "SaveAll Fehler: " ++ msg) := by
  refine ⟨?_, ?_, ?_⟩
  · intro msg
    unfold GamesResults.isRlsError
    simp only [Bool.or_eq_true, containsStr_iff, or_assoc]
  · intro msg h
    unfold GamesResults.saveRowErrorToast GamesResults.saveAllDirtyErrorToast
    rw [if_pos h, if_pos h]
    exact ⟨rfl, rfl⟩
  · intro msg h
    unfold GamesResults.saveRowErrorToast GamesResults.saveAllDirtyErrorToast
    rw [if_neg (by simp [h]), if_neg (by simp [h])]
    exact ⟨rfl, rfl⟩

/-- Witness for C6: a policy-violation message gets the dedicated RLS toast
and an unrelated message is surfaced raw. -/
theorem C6_witness :
    GamesResults.saveRowErrorToast (strL "new row violates Policy xyz")
      = strL "Save geblockt: RLS/Policy verhindert Write auf games_run_results."
    ∧ GamesResults.saveRowErrorToast (strL "duplicate key value")
      = strL "Save Fehler: " ++ strL "duplicate key value" := by
  constructor
  · exact (C6_isRlsError_spec.2.1 _ (by decide)).1
  · exact (C6_isRlsError_spec.2.2 _ (by decide)).1

/-- C5: `loadActiveEvent` returns the `games_events` row and skips the view
exactly when the first query succeeds with a row (with its id present);
otherwise it queries the `games_active_event` view, returning the view's
row (or `null`) and throwing only when the view query errors.
`loadDisciplines` retries without the `sort_order` column exactly when the
first query errors. -/
theorem C5_loader_fallbacks :
    (∀ (ev view : GamesRuns.QueryResp GamesRuns.EventRow) (d : GamesRuns.EventRow),
      ev.error = none → ev.data = some d → d.id ≠ [] →
      GamesRuns.loadActiveEvent ev view = (false, .ok (some d)))
    ∧ (∀ ev view : GamesRuns.QueryResp GamesRuns.EventRow,
        ev.error ≠ none ∨ ev.data = none →
        GamesRuns.loadActiveEvent ev view = GamesRuns.viewFallback view)
    ∧ (∀ view : GamesRuns.QueryResp GamesRuns.EventRow,
        (GamesRuns.viewFallback view).1 = true)
    ∧ (∀ (view : GamesRuns.QueryResp GamesRuns.EventRow) (e : List Char),
        view.error = some e → GamesRuns.viewFallback view = (true, .error e))
    ∧ (∀ view : GamesRuns.QueryResp GamesRuns.EventRow,
        view.error = none → GamesRuns.viewFallback view = (true, .ok view.data))
    ∧ (∀ q1 q2 : GamesRuns.QueryResp (List GamesRuns.DisciplineRow),
        ((GamesRuns.loadDisciplines q1 q2).1 = true ↔ q1.error ≠ none))
    ∧ (∀ q1 q2 : GamesRuns.QueryResp (List GamesRuns.DisciplineRow),
        q1.error = none →
        GamesRuns.loadDisciplines q1 q2 = (false, .ok (q1.data.getD [])))
    ∧ (∀ (q1 q2 : GamesRuns.QueryResp (List GamesRuns.DisciplineRow)) (e1 e2 : List Char),
        q1.error = some e1 → q2.error = some e2 →
        GamesRuns.loadDisciplines q1 q2 = (true, .error e2))
    ∧ (∀ (q1 q2 : GamesRuns.QueryResp (List GamesRuns.DisciplineRow)) (e1 : List Char),
        q1.error = some e1 → q2.error = none →
        GamesRuns.loadDisciplines q1 q2 = (true, .ok (q2.data.getD []))) := by
  refine ⟨?_, ?_, ?_, ?_, ?_, ?_, ?_, ?_, ?_⟩
  · intro ev view d he hd hid
    unfold GamesRuns.loadActiveEvent
    rw [he, hd]
    simp [List.isEmpty_iff, hid]
  · intro ev view h
    unfold GamesRuns.loadActiveEvent
    rcases h with h | h
    · cases hev : ev.error with
      | none => exact absurd hev h
      | some e => cases ev.data <;> rfl
    · rw [h]
      cases ev.error <;> rfl
  · intro view
    unfold GamesRuns.viewFallback
    cases view.error <;> rfl
  · intro view e h
    unfold GamesRuns.viewFallback
    rw [h]
  · intro view h
    unfold GamesRuns.viewFallback
    rw [h]
  · intro q1 q2
    unfold GamesRuns.loadDisciplines
    cases h : q1.error with
    | none => simp
    | some e =>
      cases q2.error <;> simp
  · intro q1 q2 h
    unfold GamesRuns.loadDisciplines
    rw [h]
  · intro q1 q2 e1 e2 h1 h2
    unfold GamesRuns.loadDisciplines
    rw [h1, h2]
  · intro q1 q2 e1 h1 h2
    unfold GamesRuns.loadDisciplines
    rw [h1, h2]

/-- Witness for C5: a successful first query with a row skips the view, a
failing first query falls back to the view, and `loadDisciplines` retries
exactly on a first-query error. -/
theorem C5_witness :
    GamesRuns.loadActiveEvent ⟨none, some ⟨strL "e1", strL "Ev", none, none⟩⟩ ⟨none, none⟩
      = (false, .ok (some ⟨strL "e1", strL "Ev", none, none⟩))
    ∧ GamesRuns.loadActiveEvent ⟨some (strL "boom"), none⟩ ⟨none, none⟩
      = GamesRuns.viewFallback ⟨none, none⟩
    ∧ GamesRuns.loadDisciplines ⟨some (strL "boom"), none⟩ ⟨none, some []⟩
        = (true, .ok ([] : List GamesRuns.DisciplineRow)) := by
  refine ⟨?_, ?_, ?_⟩
  · exact C5_loader_fallbacks.1 _ _ _ rfl rfl (by decide)
  · exact C5_loader_fallbacks.2.1 _ _ (Or.inl (by simp))
  · exact C5_loader_fallbacks.2.2.2.2.2.2.2.2 _ _ (strL "boom") rfl rfl

/-- C3: `save` in GamesHome increments the token counter before its network
request and captures it; a response whose captured token no longer equals
the counter changes nothing at all (no feature, saving-flag, or toast
update, no reload); in particular, once a newer save has started, the older
save's completion is a no-op on the newer state. -/
theorem C3_save_token_protocol :
    (∀ st : GamesHome.HomeState,
      (GamesHome.startSave st).1.saveToken = st.saveToken + 1
      ∧ (GamesHome.startSave st).2 = (GamesHome.startSave st).1.saveToken
      ∧ (GamesHome.startSave st).1.saving = true
      ∧ (GamesHome.startSave st).1.feature = st.feature
      ∧ (GamesHome.startSave st).1.toastMsg = st.toastMsg)
    ∧ (∀ (st : GamesHome.HomeState) (token : ℕ) (next prev : GamesHome.FeatureState)
        (resp : GamesHome.UpsertResp), token ≠ st.saveToken →
        GamesHome.completeSave st token next prev resp = (st, false))
    ∧ (∀ (st : GamesHome.HomeState) (next prev : GamesHome.FeatureState)
        (resp : GamesHome.UpsertResp),
        GamesHome.completeSave (GamesHome.startSave (GamesHome.startSave st).1).1
          (GamesHome.startSave st).2 next prev resp
          = ((GamesHome.startSave (GamesHome.startSave st).1).1, false)) := by
  have hstale : ∀ (st : GamesHome.HomeState) (token : ℕ)
      (next prev : GamesHome.FeatureState) (resp : GamesHome.UpsertResp),
      token ≠ st.saveToken →
      GamesHome.completeSave st token next prev resp = (st, false) := by
    intro st token next prev resp h
    unfold GamesHome.completeSave
    rw [if_pos h]
  refine ⟨?_, hstale, ?_⟩
  · intro st
    exact ⟨rfl, rfl, rfl, rfl, rfl⟩
  · intro st next prev resp
    refine hstale _ _ _ _ _ ?_
    show st.saveToken + 1 ≠ (GamesHome.startSave (GamesHome.startSave st).1).1.saveToken
    simp only [GamesHome.startSave]
    omega

/-- Witness for C3: a stale response (captured token 2, current counter 3)
leaves the state untouched and triggers no reload. -/
theorem C3_witness :
    GamesHome.completeSave ⟨3, true, ⟨true, true, strL "T"⟩, none⟩ 2
      ⟨true, true, strL "T"⟩ ⟨false, true, strL "T"⟩ ⟨some (strL "boom"), none⟩
      = (⟨3, true, ⟨true, true, strL "T"⟩, none⟩, false) :=
  C3_save_token_protocol.2.1 _ 2 _ _ _ (by decide)


open FFH FFH.GamesResults

/-- C4: optimistic state is reverted on save failure. In GamesHome, a failed
upsert (with the current token) restores the feature state to its
pre-edit value and clears the saving flag. In GamesRuns, a failed update
resets the edited view-model row field-by-field (name, status, the three
local times, sort_order) to the originally loaded row, with the error
toasted. -/
theorem C4_optimistic_revert :
    (∀ (st : GamesHome.HomeState) (token : ℕ) (next prev : GamesHome.FeatureState)
        (resp : GamesHome.UpsertResp) (msg : List Char),
      token = st.saveToken → resp.error = some msg →
      (GamesHome.completeSave st token next prev resp).1.feature = prev
      ∧ (GamesHome.completeSave st token next prev resp).1.saving = false)
    ∧ (∀ (isoToLocal : Option (List Char) → List Char) (numToStr : ℚ → List Char)
        (dateParse : List Char → Option (List Char)) (nowIso : List Char)
        (vmRuns : List GamesRuns.VmRun) (runs : List GamesRuns.RunRow)
        (id msg : List Char) (vm : GamesRuns.VmRun) (original : GamesRuns.RunRow),
        vmRuns.find? (fun x => x.id = id) = some vm →
        runs.find? (fun x => x.id = id) = some original →
        ¬(¬(trimList vm.sort_order).isEmpty ∧ jsNumber vm.sort_order = none) →
        ¬(¬vm.scheduled_local.isEmpty ∧
          (if ¬vm.scheduled_local.isEmpty
           then GamesRuns.datetimeLocalToISO dateParse vm.scheduled_local else none) = none) →
        ¬(¬vm.started_local.isEmpty ∧
          (if ¬vm.started_local.isEmpty
           then GamesRuns.datetimeLocalToISO dateParse vm.started_local else none) = none) →
        ¬(¬vm.finished_local.isEmpty ∧
          (if ¬vm.finished_local.isEmpty
           then GamesRuns.datetimeLocalToISO dateParse vm.finished_local else none) = none) →
        (∀ x ∈ (GamesRuns.saveRun isoToLocal numToStr dateParse nowIso vmRuns runs id
            (some msg)).vmRuns, x.id = id →
          x.name = original.name.getD []
          ∧ x.status = GamesRuns.normalizeStatus original.status
          ∧ x.scheduled_local = isoToLocal original.scheduled_at
          ∧ x.started_local = isoToLocal original.started_at
          ∧ x.finished_local = isoToLocal original.finished_at
          ∧ x.sort_order = (match original.sort_order with
              | some q => numToStr q
              | none => []))
        ∧ (GamesRuns.saveRun isoToLocal numToStr dateParse nowIso vmRuns runs id
            (some msg)).toastMsg = some (strL "Update Fehler: " ++ msg)) := by
  constructor
  · intro st token next prev resp msg htok herr
    unfold GamesHome.completeSave
    rw [if_neg (by simp [htok]), herr]
    exact ⟨rfl, rfl⟩
  · intro isoToLocal numToStr dateParse nowIso vmRuns runs id msg vm original
      hfind1 hfind2 hsort hs hst hfin
    unfold GamesRuns.saveRun
    simp only [hfind1, hfind2]
    rw [if_neg hsort, if_neg hs, if_neg hst, if_neg hfin]
    exact ⟨revertVm_fields isoToLocal numToStr _ id original, rfl⟩

/-- Witness for C4: a failed GamesHome upsert restores the previous feature
state, and a failed GamesRuns update resets the row and toasts the error. -/
theorem C4_witness :
    (GamesHome.completeSave ⟨1, true, ⟨true, true, strL "T"⟩, none⟩ 1
        ⟨true, true, strL "T"⟩ ⟨false, false, strL "P"⟩ ⟨some (strL "boom"), none⟩).1.feature
      = ⟨false, false, strL "P"⟩
    ∧ (GamesRuns.saveRun (fun _ => []) (fun _ => []) (fun _ => none) []
        [⟨strL "r1", strL "d1", strL "N", GamesRuns.RunStatus.planned, [], [], [], [], false⟩]
        [⟨strL "r1", strL "d1", some (strL "Orig"), none, none, none,
          some (strL "done"), none⟩]
        (strL "r1") (some (strL "boom"))).toastMsg
      = some (strL "Update Fehler: " ++ strL "boom") := by
  constructor
  · exact (C4_optimistic_revert.1 _ 1 _ _ _ (strL "boom") rfl rfl).1
  · exact (C4_optimistic_revert.2 (fun _ => []) (fun _ => []) (fun _ => none) []
      [⟨strL "r1", strL "d1", strL "N", GamesRuns.RunStatus.planned, [], [], [], [], false⟩]
      [⟨strL "r1", strL "d1", some (strL "Orig"), none, none, none,
        some (strL "done"), none⟩]
      (strL "r1") (strL "boom")
      ⟨strL "r1", strL "d1", strL "N", GamesRuns.RunStatus.planned, [], [], [], [], false⟩
      ⟨strL "r1", strL "d1", some (strL "Orig"), none, none, none,
        some (strL "done"), none⟩
      (by decide) (by decide) (by decide) (by decide) (by decide) (by decide)).2

/-- C2: in a successfully built payload, `time_ms` is null whenever the
scoring mode is not `time_best`, `distance` is null whenever the mode is
not `distance_best`, and `points_manual` is always the parse of the points
input; a non-blank unparseable mode-relevant input makes `buildPayload`
return an error instead of a payload. -/
theorem C2_buildPayload_modes :
    (∀ (aev : Option (List Char)) (run : GamesResults.RunRef)
        (mode : GamesResults.ScoringMode) (dt : List Char → List Char) (now : List Char)
        (row : GamesResults.RowVM) (fields : List (List Char × GamesResults.JsVal)),
      GamesResults.buildPayload aev (some run) (some mode) dt now row
          = GamesResults.BuildRes.ok fields →
        ((mode ≠ GamesResults.ScoringMode.time_best →
            List.lookup (strL "time_ms") fields = some GamesResults.JsVal.vnull)
        ∧ (mode ≠ GamesResults.ScoringMode.distance_best →
            List.lookup (strL "distance") fields = some GamesResults.JsVal.vnull)
        ∧ List.lookup (strL "points_manual") fields
            = some (GamesResults.JsVal.ofIntOpt
                (GamesResults.parseIntOrNull row.pointsManualStr))))
    ∧ (∀ (aev : Option (List Char)) (run : GamesResults.RunRef)
        (dt : List Char → List Char) (now : List Char) (row : GamesResults.RowVM),
        (aev.getD []).isEmpty = false →
        (trimList row.timeStr).isEmpty = false →
        GamesResults.parseTimeToMs row.timeStr = none →
        GamesResults.buildPayload aev (some run) (some GamesResults.ScoringMode.time_best)
            dt now row
          = GamesResults.BuildRes.err
              (strL "Zeit ungültig. Format z.B. \"1:23.456\" oder \"83.456\"."))
    ∧ (∀ (aev : Option (List Char)) (run : GamesResults.RunRef)
        (dt : List Char → List Char) (now : List Char) (row : GamesResults.RowVM),
        (aev.getD []).isEmpty = false →
        (trimList row.distanceStr).isEmpty = false →
        GamesResults.parseFloatOrNull row.distanceStr = none →
        GamesResults.buildPayload aev (some run)
            (some GamesResults.ScoringMode.distance_best) dt now row
          = GamesResults.BuildRes.err (strL "Distanz ungültig. Format z.B. 12.34")) := by
  refine ⟨?_, ?_, ?_⟩
  · intro aev run mode dt now row fields h
    by_cases haev : (aev.getD []).isEmpty
    · exfalso
      unfold GamesResults.buildPayload at h
      rw [if_pos haev] at h
      exact GamesResults.BuildRes.noConfusion h
    · have haev2 : (aev.getD []).isEmpty = false := by
        revert haev
        cases (aev.getD []).isEmpty <;> simp
      rw [buildPayload_eval run mode dt now row haev2] at h
      cases ht : GamesResults.timeStep mode row with
      | error m =>
        rw [ht] at h
        exact absurd h (by simp)
      | ok tv =>
        rw [ht] at h
        cases hd : GamesResults.distStep mode row with
        | error m =>
          rw [hd] at h
          exact absurd h (by simp)
        | ok dv =>
          rw [hd] at h
          simp only [GamesResults.BuildRes.ok.injEq] at h
          subst h
          refine ⟨?_, ?_, ?_⟩
          · intro hmode
            have htv : tv = none := by
              simpa using ht.symm.trans (timeStep_of_ne row hmode)
            subst htv
            exact lookup_payload_time _ _ _ _ _ _ _ _ _ _
          · intro hmode
            have hdv : dv = none := by
              simpa using hd.symm.trans (distStep_of_ne row hmode)
            subst hdv
            exact lookup_payload_distance _ _ _ _ _ _ _ _ _ _
          · exact lookup_payload_points _ _ _ _ _ _ _ _ _ _
  · intro aev run dt now row haev htrim hparse
    rw [buildPayload_eval run _ dt now row haev, timeStep_err htrim hparse]
  · intro aev run dt now row haev htrim hparse
    rw [buildPayload_eval run _ dt now row haev,
      timeStep_of_ne row (by intro hc; cases hc), distStep_err htrim hparse]

/-- Witness for C2: with an active event and `time_best` mode, the
unparseable non-blank time input `"xx"` makes `buildPayload` return the
dedicated error. -/
theorem C2_witness :
    GamesResults.buildPayload (some (strL "e1")) (some ⟨strL "r1", strL "d1"⟩)
        (some GamesResults.ScoringMode.time_best) (fun _ => []) (strL "now")
        ⟨strL "t1", [], strL "xx", [], [], [], none, none, true, false⟩
      = GamesResults.BuildRes.err
          (strL "Zeit ungültig. Format z.B. \"1:23.456\" oder \"83.456\".") :=
  C2_buildPayload_modes.2.1 _ _ _ _ _ (by decide) (by decide) (by decide)

/-- C7: every write that `saveRow` or `saveAllDirty` issues against
`games_run_results` carries exactly the ten payload keys `event_id`,
`discipline_id`, `run_id`, `team_id`, `points_manual`, `time_ms`,
`distance`, `achieved_at`, `note`, `updated_at` — never `place` or
`points_awarded`, so the server-computed ranking fields are untouched by
client saves. -/
theorem C7_client_never_writes_derived :
    (∀ (aev : Option (List Char)) (run : Option GamesResults.RunRef)
        (mode : Option GamesResults.ScoringMode) (dt : List Char → List Char)
        (now : List Char) (row : GamesResults.RowVM) (existing : Option (List Char))
        (w : GamesResults.DbWrite),
      GamesResults.saveRowWrite aev run mode dt now row existing = some w →
        w.fields.map Prod.fst =
          [strL "event_id", strL "discipline_id", strL "run_id", strL "team_id",
           strL "points_manual", strL "time_ms", strL "distance", strL "achieved_at",
           strL "note", strL "updated_at"]
        ∧ strL "place" ∉ w.fields.map Prod.fst
        ∧ strL "points_awarded" ∉ w.fields.map Prod.fst)
    ∧ (∀ (aev : Option (List Char)) (run : Option GamesResults.RunRef)
        (mode : Option GamesResults.ScoringMode) (dt : List Char → List Char)
        (now : List Char) (rows : List GamesResults.RowVM)
        (existingOf : List Char → Option (List Char)) (w : GamesResults.DbWrite),
        w ∈ GamesResults.saveAllDirtyWrites aev run mode dt now rows existingOf →
        w.fields.map Prod.fst =
          [strL "event_id", strL "discipline_id", strL "run_id", strL "team_id",
           strL "points_manual", strL "time_ms", strL "distance", strL "achieved_at",
           strL "note", strL "updated_at"]
        ∧ strL "place" ∉ w.fields.map Prod.fst
        ∧ strL "points_awarded" ∉ w.fields.map Prod.fst) := by
  constructor
  · intro aev run mode dt now row existing w h
    have hk := saveRowWrite_keys h
    exact ⟨hk, by rw [hk]; decide, by rw [hk]; decide⟩
  · intro aev run mode dt now rows existingOf w hw
    unfold GamesResults.saveAllDirtyWrites at hw
    obtain ⟨r, _, hfr⟩ := List.mem_filterMap.mp hw
    have hk := saveRowWrite_keys hfr
    exact ⟨hk, by rw [hk]; decide, by rw [hk]; decide⟩

/-- Witness for C7: the insert emitted for a fresh blank row carries
exactly the ten payload keys and neither `place` nor `points_awarded`. -/
theorem C7_witness :
    (GamesResults.DbWrite.insert (strL "games_run_results")
        [(strL "event_id", GamesResults.JsVal.vstr (strL "e1")),
         (strL "discipline_id", GamesResults.JsVal.vstr (strL "d1")),
         (strL "run_id", GamesResults.JsVal.vstr (strL "r1")),
         (strL "team_id", GamesResults.JsVal.vstr (strL "t1")),
         (strL "points_manual", GamesResults.JsVal.vnull),
         (strL "time_ms", GamesResults.JsVal.vnull),
         (strL "distance", GamesResults.JsVal.vnull),
         (strL "achieved_at", GamesResults.JsVal.vnull),
         (strL "note", GamesResults.JsVal.vnull),
         (strL "updated_at", GamesResults.JsVal.vstr (strL "now"))]).fields.map Prod.fst
      = [strL "event_id", strL "discipline_id", strL "run_id", strL "team_id",
         strL "points_manual", strL "time_ms", strL "distance", strL "achieved_at",
         strL "note", strL "updated_at"]
    ∧ strL "place" ∉ (GamesResults.DbWrite.insert (strL "games_run_results")
        [(strL "event_id", GamesResults.JsVal.vstr (strL "e1")),
         (strL "discipline_id", GamesResults.JsVal.vstr (strL "d1")),
         (strL "run_id", GamesResults.JsVal.vstr (strL "r1")),
         (strL "team_id", GamesResults.JsVal.vstr (strL "t1")),
         (strL "points_manual", GamesResults.JsVal.vnull),
         (strL "time_ms", GamesResults.JsVal.vnull),
         (strL "distance", GamesResults.JsVal.vnull),
         (strL "achieved_at", GamesResults.JsVal.vnull),
         (strL "note", GamesResults.JsVal.vnull),
         (strL "updated_at", GamesResults.JsVal.vstr (strL "now"))]).fields.map Prod.fst
    ∧ strL "points_awarded" ∉ (GamesResults.DbWrite.insert (strL "games_run_results")
        [(strL "event_id", GamesResults.JsVal.vstr (strL "e1")),
         (strL "discipline_id", GamesResults.JsVal.vstr (strL "d1")),
         (strL "run_id", GamesResults.JsVal.vstr (strL "r1")),
         (strL "team_id", GamesResults.JsVal.vstr (strL "t1")),
         (strL "points_manual", GamesResults.JsVal.vnull),
         (strL "time_ms", GamesResults.JsVal.vnull),
         (strL "distance", GamesResults.JsVal.vnull),
         (strL "achieved_at", GamesResults.JsVal.vnull),
         (strL "note", GamesResults.JsVal.vnull),
         (strL "updated_at", GamesResults.JsVal.vstr (strL "now"))]).fields.map Prod.fst :=
  C7_client_never_writes_derived.1 (some (strL "e1")) (some ⟨strL "r1", strL "d1"⟩)
    (some GamesResults.ScoringMode.points_only) (fun _ => []) (strL "now")
    ⟨strL "t1", [], [], [], [], [], none, none, true, false⟩ none _ (by decide)


end FFH.Claims
